import Mathlib

/-!
Verification of the Historical Weather Ingestion and Location-Resolution
engine of the `weather-journey-tracker` backend.

This file is a shallow embedding, in Lean 4, of the functions
`upload_historical_data`, `upload_multi_location_historical_data`,
`_extract_location_info`, `_create_location_key`,
`_find_matching_location` and `_parse_date_string` of
`backend/app/services/weather_service.py`.

Modelling conventions:
* JSON values are modelled by the inductive type `Val`; Python floats are
  modelled as exact rationals (`ℚ`), so no floating-point rounding is
  modelled.  Python `None` is `Val.vNull`.
* The relational store is modelled as in-memory lists: `List Location`
  for the (read-only) locations table and `List WeatherRecord` for the
  weather-sample table.  `query.filter(...).first()` becomes `List.find?`
  (storage iteration order = list order), `db.session.add` appends to the
  list.  Since SQLAlchemy autoflushes pending inserts before a query, a
  query sees all previously added rows; commits have no observable effect
  in this model and are not represented.
* Python truthiness (`if value:`) is modelled by `truthy`.
* SQL `ilike '%pat%'` is modelled as case-insensitive substring
  containment (`containsCI`); SQL wildcard characters inside the pattern
  are not given their wildcard meaning.
* `datetime.fromtimestamp` depends on the host timezone; it is modelled
  here as the UTC conversion (`epochToDT`).
* Exceptions raised while processing one record are always caught by the
  per-record `except` handler and turn into a skip, so fallible
  per-record computations are modelled with `Option`, `none` meaning
  "this record raises".
* Per-record error messages are not modelled; the report keeps only the
  length of the `errors` list.
* The checked-in `app/models/location.py` lacks an `address` column, but
  the routes (`routes/locations.py`) and the data-migration script both
  read and write `Location.address`, and the spec's data model gives
  `Location` an optional `address`; the field is modelled here as
  `Option String` (an SQL `NULL` address matches no `ilike` pattern).
-/

set_option maxRecDepth 2000

/-- A JSON-ish Python value, as decoded from the uploaded JSON file. -/
inductive Val : Type where
  | vNull : Val
  | vBool : Bool → Val
  | vNum  : ℚ → Val
  | vStr  : String → Val
  | vArr  : List Val → Val
  | vObj  : List (String × Val) → Val

open Val

/-- Python truthiness of a value (`bool(v)`). -/
def truthy : Val → Bool
  | vNull    => false
  | vBool b  => b
  | vNum q   => q ≠ 0
  | vStr s   => s ≠ ""
  | vArr l   => !l.isEmpty
  | vObj l   => !l.isEmpty

/-- Truthiness of `record.get(k)`: an absent key yields Python `None`,
which is falsy. -/
def truthyOpt : Option Val → Bool
  | none   => false
  | some v => truthy v

/-- Decimal digit characters of a natural number, most significant
first, with an explicit fuel bound (`n + 1` always suffices); nonempty
by construction. -/
def natCharsAux : Nat → Nat → List Char
  | 0, _ => []
  | fuel + 1, n =>
    if n < 10 then [Char.ofNat (48 + n)]
    else natCharsAux fuel (n / 10) ++ [Char.ofNat (48 + n % 10)]

/-- Decimal digit characters of a natural number, most significant
first. -/
def natChars (n : Nat) : List Char := natCharsAux (n + 1) n

/-- A decimal rendering of a rational, standing in for Python `str` on
numbers; nonempty by construction. -/
def ratRender (q : ℚ) : String :=
  String.mk ((if q < 0 then ['-'] else []) ++ natChars q.num.natAbs ++
    (if q.den = 1 then ['.', '0'] else '/' :: natChars q.den))

/-- Python `str(v)`.  Faithful for strings (the only case the verified
claims exercise); for other values it produces some fixed nonempty
rendering, standing in for Python's `str`. -/
def pyStr : Val → String
  | vStr s  => s
  | vNum q  => ratRender q
  | vBool b => if b then "True" else "False"
  | vNull   => "None"
  | vArr _  => "[...]"
  | vObj _  => "{...}"

/-! Character-list helpers used by the string parsers. -/

/-- All characters of the list are ASCII digits. -/
def allDigits (l : List Char) : Bool := l.all (·.isDigit)

/-- Numeric value of a list of ASCII digit characters (most significant
first). -/
def digitsVal (l : List Char) : Nat :=
  l.foldl (fun acc c => acc * 10 + (c.toNat - 48)) 0

/-- Split a list at every occurrence of the separator character; the
separator is dropped and empty pieces are kept, like Python
`"a/b".split("/")`. -/
def splitOnChar (c : Char) : List Char → List (List Char)
  | [] => [[]]
  | x :: xs =>
    let r := splitOnChar c xs
    if x = c then [] :: r
    else match r with
      | [] => [[x]]
      | p :: ps => (x :: p) :: ps

/-- Strip leading and trailing whitespace, as Python `int`/`float` do on
string input. -/
def trimWs (l : List Char) : List Char :=
  (l.dropWhile (·.isWhitespace)).reverse.dropWhile (·.isWhitespace) |>.reverse

/-- Python `int(s)` on a string: optional surrounding whitespace, an
optional sign, then one or more decimal digits.  (Underscore digit
grouping is not modelled.)  Returns `none` when Python raises
`ValueError`. -/
def pyIntOfChars (l : List Char) : Option Int :=
  match trimWs l with
  | [] => none
  | c :: ds =>
    if c = '-' then
      (if ds ≠ [] && allDigits ds then some (-(digitsVal ds : Int)) else none)
    else if c = '+' then
      (if ds ≠ [] && allDigits ds then some ((digitsVal ds : Int)) else none)
    else (if allDigits (c :: ds) then some ((digitsVal (c :: ds) : Int)) else none)

/-- Python `float(s)` on a string: optional surrounding whitespace, an
optional sign, a decimal mantissa (`digits`, `digits.digits`, `.digits`
or `digits.`) and an optional decimal exponent.  (`inf`/`nan` spellings
are not modelled.)  Returns `none` when Python raises `ValueError`. -/
def pyFloatOfChars (l : List Char) : Option ℚ :=
  let t := trimWs l
  let (sign, body) : ℚ × List Char :=
    match t with
    | '-' :: r => (-1, r)
    | '+' :: r => (1, r)
    | r => (1, r)
  let (mantPart, expPart) : List Char × Option (List Char) :=
    match splitOnChar 'e' (body.map Char.toLower) with
    | [m] => (m, none)
    | [m, e] => (m, some e)
    | _ => ([], some [])          -- more than one exponent marker: invalid
  let mant : Option ℚ :=
    match splitOnChar '.' mantPart with
    | [i] => if i ≠ [] && allDigits i then some ((digitsVal i : ℚ)) else none
    | [i, f] =>
      if (i ≠ [] || f ≠ []) && allDigits i && allDigits f then
        some ((digitsVal i : ℚ) + (digitsVal f : ℚ) / ((10 : ℚ) ^ f.length))
      else none
    | _ => none
  match mant with
  | none => none
  | some m =>
    match expPart with
    | none => some (sign * m)
    | some e =>
      let (esign, eds) : Bool × List Char :=
        match e with
        | '-' :: r => (true, r)
        | '+' :: r => (false, r)
        | r => (false, r)
      if eds ≠ [] && allDigits eds then
        let ev : ℚ := (10 : ℚ) ^ digitsVal eds
        some (sign * (if esign then m / ev else m * ev))
      else none

/-- Python `int(v)` as used on the raw date value: numbers truncate
toward zero, booleans become 0/1, strings are parsed, anything else
raises.  `none` models both `ValueError` and `TypeError`, which the
caller catches. -/
def pyIntVal : Val → Option Int
  | vNum q  => some (Int.tdiv q.num (q.den : Int))
  | vBool b => some (if b then 1 else 0)
  | vStr s  => pyIntOfChars s.data
  | _       => none

/-- Python `float(v)`: numbers pass through, booleans become 0.0/1.0,
strings are parsed, anything else raises (`none`). -/
def pyFloat : Val → Option ℚ
  | vNum q  => some q
  | vBool b => some (if b then 1 else 0)
  | vStr s  => pyFloatOfChars s.data
  | _       => none

/-! The Date Normalizer: a model of `_parse_date_string`. -/

/-- A naive Python `datetime` (no timezone). -/
structure DT where
  year : Int
  month : Nat
  day : Nat
  hour : Nat
  minute : Nat
  second : Nat
deriving DecidableEq

/-- Gregorian leap-year test, as `datetime` uses. -/
def isLeap (y : Int) : Bool := (y % 4 == 0 && y % 100 != 0) || y % 400 == 0

/-- Number of days of month `m` (1-12) of year `y`. -/
def daysInMonth (y : Int) (m : Nat) : Nat :=
  if m = 2 then (if isLeap y then 29 else 28)
  else if m = 4 ∨ m = 6 ∨ m = 9 ∨ m = 11 then 30
  else 31

/-- One numeric `strptime` field of at most `maxLen` digits whose value
must lie in `[lo, hi]` (this is how the directive regexes for `%m`, `%d`,
`%H`, `%M`, `%S` behave). -/
def numField (l : List Char) (maxLen lo hi : Nat) : Option Nat :=
  if l ≠ [] && l.length ≤ maxLen && allDigits l &&
      lo ≤ digitsVal l && digitsVal l ≤ hi then some (digitsVal l) else none

/-- The `%Y` field: exactly four digits; `datetime` then requires
`year ≥ 1`. -/
def yearField (l : List Char) : Option Int :=
  if l.length = 4 && allDigits l && 1 ≤ digitsVal l then some (digitsVal l) else none

/-- Calendar validation done by the `datetime` constructor after the
directive regexes matched. -/
def checkDay (y : Int) (m d : Nat) : Option (Int × Nat × Nat) :=
  if d ≤ daysInMonth y m then some (y, m, d) else none

/-- The `%Y-%m-%d` date part. -/
def ymdCore (l : List Char) : Option (Int × Nat × Nat) :=
  match splitOnChar '-' l with
  | [ys, ms, ds] =>
    match yearField ys, numField ms 2 1 12, numField ds 2 1 31 with
    | some y, some m, some d => checkDay y m d
    | _, _, _ => none
  | _ => none

/-- The `%H:%M:%S` time part. -/
def hmsCore (l : List Char) : Option (Nat × Nat × Nat) :=
  match splitOnChar ':' l with
  | [hs, ms, ss] =>
    match numField hs 2 0 23, numField ms 2 0 59, numField ss 2 0 59 with
    | some h, some mi, some s => some (h, mi, s)
    | _, _, _ => none
  | _ => none

/-- Format `%Y-%m-%d`. -/
def fmtYmd (l : List Char) : Option DT :=
  (ymdCore l).map fun (y, m, d) => ⟨y, m, d, 0, 0, 0⟩

/-- Format `%Y-%m-%d %H:%M:%S`.  (A whitespace run in the input is
modelled as a single space.) -/
def fmtYmdSpaceHms (l : List Char) : Option DT :=
  match splitOnChar ' ' l with
  | [dp, tp] =>
    match ymdCore dp, hmsCore tp with
    | some (y, m, d), some (h, mi, s) => some ⟨y, m, d, h, mi, s⟩
    | _, _ => none
  | _ => none

/-- Format `%Y-%m-%dT%H:%M:%S`. -/
def fmtYmdTHms (l : List Char) : Option DT :=
  match splitOnChar 'T' l with
  | [dp, tp] =>
    match ymdCore dp, hmsCore tp with
    | some (y, m, d), some (h, mi, s) => some ⟨y, m, d, h, mi, s⟩
    | _, _ => none
  | _ => none

/-- Format `%Y-%m-%dT%H:%M:%SZ` (the trailing `Z` is a literal). -/
def fmtYmdTHmsZ (l : List Char) : Option DT :=
  match l.getLast? with
  | some 'Z' => fmtYmdTHms l.dropLast
  | _ => none

/-- Format `%m/%d/%Y`. -/
def fmtMdy (l : List Char) : Option DT :=
  match splitOnChar '/' l with
  | [ms, ds, ys] =>
    match numField ms 2 1 12, numField ds 2 1 31, yearField ys with
    | some m, some d, some y =>
      match checkDay y m d with
      | some _ => some ⟨y, m, d, 0, 0, 0⟩
      | none => none
    | _, _, _ => none
  | _ => none

/-- Format `%d/%m/%Y`. -/
def fmtDmy (l : List Char) : Option DT :=
  match splitOnChar '/' l with
  | [ds, ms, ys] =>
    match numField ds 2 1 31, numField ms 2 1 12, yearField ys with
    | some d, some m, some y =>
      match checkDay y m d with
      | some _ => some ⟨y, m, d, 0, 0, 0⟩
      | none => none
    | _, _, _ => none
  | _ => none

/-- `datetime.fromtimestamp` with the host timezone taken as UTC:
seconds since the Unix epoch to a civil date-time (Howard Hinnant's
`civil_from_days` algorithm). -/
def epochToDT (n : Int) : DT :=
  let days := Int.fdiv n 86400
  let secs := (Int.fmod n 86400).toNat
  let z := days + 719468
  let era := Int.fdiv z 146097
  let doe := z - era * 146097
  let yoe := Int.fdiv (doe - Int.fdiv doe 1460 + Int.fdiv doe 36524 - Int.fdiv doe 146096) 365
  let y0 := yoe + era * 400
  let doy := doe - (365 * yoe + Int.fdiv yoe 4 - Int.fdiv yoe 100)
  let mp := Int.fdiv (5 * doy + 2) 153
  let d := doy - Int.fdiv (153 * mp + 2) 5 + 1
  let m := if mp < 10 then mp + 3 else mp - 9
  let y := if m ≤ 2 then y0 + 1 else y0
  ⟨y, m.toNat, d.toNat, secs / 3600, secs % 3600 / 60, secs % 60⟩

/-- The ordered format list of `_parse_date_string`, tried after the
integer attempt; the first format that parses wins. -/
def tryFormats (l : List Char) : Option DT :=
  fmtYmd l <|> fmtYmdSpaceHms l <|> fmtYmdTHms l <|> fmtYmdTHmsZ l <|>
    fmtMdy l <|> fmtDmy l

/-- `_parse_date_string`: first try `int(date_str)` and treat a success
as Unix seconds; otherwise try the calendar string formats in order.
A non-string, non-numeric value makes `strptime` raise `TypeError`,
which escapes to the per-record handler: modelled as `none`, since the
caller turns both outcomes into a skip of the record. -/
def parseDateVal (v : Val) : Option DT :=
  match pyIntVal v with
  | some n => some (epochToDT n)
  | none =>
    match v with
    | vStr s => tryFormats s.data
    | _ => none

/-! The Location Resolver: a model of `_find_matching_location`. -/

/-- Does the pattern occur at the head of the text? -/
def headMatch : List Char → List Char → Bool
  | [], _ => true
  | _ :: _, [] => false
  | p :: ps, t :: ts => p == t && headMatch ps ts

/-- Does the pattern occur anywhere in the text? -/
def subMatch (pat : List Char) : List Char → Bool
  | [] => pat.isEmpty
  | t :: ts => headMatch pat (t :: ts) || subMatch pat ts

/-- ASCII lowercasing (`str.lower()` / the case folding of `ilike`),
done on the character list. -/
def strLower (s : String) : String := String.mk (s.data.map Char.toLower)

/-- SQL `column ilike '%pat%'`: case-insensitive substring containment. -/
def containsCI (hay pat : String) : Bool :=
  subMatch (pat.data.map Char.toLower) (hay.data.map Char.toLower)

/-- Python `s.split()`: split on whitespace runs, dropping empty pieces. -/
def pyWords (s : String) : List String :=
  ((splitOnChar ' ' s.data).filter (· ≠ [])).map String.mk

/-- A stored Location row (read-only for this core).  `start_date`,
`end_date`, `notes` and the audit timestamps play no role in resolution
and are omitted; see the header note about `address`. -/
structure Location where
  id : Int
  user_id : Int
  name : String
  city : String
  country : String
  address : Option String
  latitude : ℚ
  longitude : ℚ
deriving DecidableEq

/-- First hit of an option-producing function over a list (the pattern
`for x in xs: ... if hit: return hit`). -/
def firstSome {α β : Type} (f : α → Option β) : List α → Option β
  | [] => none
  | a :: as =>
    match f a with
    | some b => some b
    | none => firstSome f as

/-- The coordinate tolerance ladder of `_find_matching_location`, in
degrees, tried tightest first. -/
def tolerances : List ℚ := [0.001, 0.01, 0.022, 0.1, 0.5, 1.0]

/-- The extracted location descriptor (`location_info` dict).  The
`latitude`/`longitude` fields are populated only as a pair (the source
sets them together or not at all). -/
structure LocInfo where
  name : Option String
  city : Option String
  address : Option String
  latitude : Option ℚ
  longitude : Option ℚ
deriving DecidableEq

/-- Truthiness of an optional string field of the descriptor
(`location_info.get(k)`). -/
def strTruthy : Option String → Bool
  | none => false
  | some s => s ≠ ""

/-- Truthiness of an optional numeric field of the descriptor: `0.0` is
falsy. -/
def numTruthy : Option ℚ → Bool
  | none => false
  | some q => q ≠ 0

/-- Strategy 1: coordinate proximity.  For each tolerance, the first
Location of the user whose stored coordinates both lie within the square
bounding box wins. -/
def coordStep (u : Int) (info : LocInfo) (locs : List Location) : Option Location :=
  if numTruthy info.latitude && numTruthy info.longitude then
    firstSome (fun tol =>
      locs.find? (fun l =>
        l.user_id == u &&
        decide (info.latitude.getD 0 - tol ≤ l.latitude) &&
        decide (l.latitude ≤ info.latitude.getD 0 + tol) &&
        decide (info.longitude.getD 0 - tol ≤ l.longitude) &&
        decide (l.longitude ≤ info.longitude.getD 0 + tol)))
      tolerances
  else none

/-- Strategies 2-3: name+city substring match, then city-only substring
match as fallback. -/
def nameCityStep (u : Int) (info : LocInfo) (locs : List Location) : Option Location :=
  if strTruthy info.name && strTruthy info.city then
    match locs.find? (fun l => l.user_id == u &&
        containsCI l.name (info.name.getD "") && containsCI l.city (info.city.getD "")) with
    | some l => some l
    | none => locs.find? (fun l => l.user_id == u && containsCI l.city (info.city.getD ""))
  else none

/-- Strategy 4: whole-name substring match, then any whitespace token of
the descriptor's name longer than two characters. -/
def nameStep (u : Int) (info : LocInfo) (locs : List Location) : Option Location :=
  if strTruthy info.name then
    match locs.find? (fun l => l.user_id == u && containsCI l.name (info.name.getD "")) with
    | some l => some l
    | none =>
      firstSome (fun part =>
        if part.length > 2 then
          locs.find? (fun l => l.user_id == u && containsCI l.name part)
        else none)
        (pyWords (info.name.getD ""))
  else none

/-- The city-only whole-string and token matches of strategy 5 (without
the address fallback). -/
def citySearch (u : Int) (c : String) (locs : List Location) : Option Location :=
  match locs.find? (fun l => l.user_id == u && containsCI l.city c) with
  | some l => some l
  | none =>
    firstSome (fun part =>
      if part.length > 2 then
        locs.find? (fun l => l.user_id == u && containsCI l.city part)
      else none)
      (pyWords c)

/-- The hard-coded address fallback: only for the literal descriptor city
`"Healdsburg"`, match a Location whose address contains `"Healdsburg"`
case-insensitively (an SQL `NULL` address never matches). -/
def healdsburgAddressFind (u : Int) (locs : List Location) : Option Location :=
  locs.find? (fun l =>
    l.user_id == u &&
    (match l.address with
     | some a => containsCI a "Healdsburg"
     | none => false))

/-- Strategy 5 as written in the source: city substring, city tokens,
then the Healdsburg address special case. -/
def cityStep (u : Int) (info : LocInfo) (locs : List Location) : Option Location :=
  if strTruthy info.city then
    match citySearch u (info.city.getD "") locs with
    | some l => some l
    | none => if info.city = some "Healdsburg" then healdsburgAddressFind u locs else none
  else none

/-- `_find_matching_location`: the strict ordered strategy ladder. -/
def findMatchingLocation (u : Int) (info : LocInfo) (locs : List Location) : Option Location :=
  match coordStep u info locs with
  | some l => some l
  | none =>
    match nameCityStep u info locs with
    | some l => some l
    | none =>
      match nameStep u info locs with
      | some l => some l
      | none => cityStep u info locs

/-- Strategy 5 with the Healdsburg address special case removed; used
only to state that for any other descriptor city the address column is
never consulted. -/
def cityStepNoAddress (u : Int) (info : LocInfo) (locs : List Location) : Option Location :=
  if strTruthy info.city then citySearch u (info.city.getD "") locs else none

/-- The resolution ladder without the address fallback, following the
spec's strategy list 1-5 of section 4.4; used only as the comparison
point for the address special case. -/
def findMatchingLocationNoAddress (u : Int) (info : LocInfo) (locs : List Location) :
    Option Location :=
  match coordStep u info locs with
  | some l => some l
  | none =>
    match nameCityStep u info locs with
    | some l => some l
    | none =>
      match nameStep u info locs with
      | some l => some l
      | none => cityStepNoAddress u info locs

/-! Python-style fixed-point formatting, used by the synthesized names
and the coordinate cache keys. -/

/-- Round to the nearest integer, ties to even (Python float
formatting). -/
def roundHalfEven (q : ℚ) : Int :=
  let f := ⌊q⌋
  let r := q - f
  if r < 1 / 2 then f
  else if 1 / 2 < r then f + 1
  else if f % 2 = 0 then f else f + 1

/-- Python `f"{q:.prec f}"` on the exact rational `q`. -/
def formatFixed (prec : Nat) (q : ℚ) : String :=
  let n := roundHalfEven (q * (10 : ℚ) ^ prec)
  let a := n.natAbs
  let ip := a / 10 ^ prec
  let fp := a % 10 ^ prec
  let fpChars := natChars fp
  (if n < 0 then "-" else "") ++ String.mk (natChars ip) ++ "." ++
    String.mk (List.replicate (prec - fpChars.length) '0') ++ String.mk fpChars

/-! The Location Descriptor Extractor: a model of
`_extract_location_info`, and the cache key of `_create_location_key`. -/

/-- `field in record and record[field]`: the value of a present, truthy
field. -/
def pyGetT (fs : List (String × Val)) (k : String) : Option Val :=
  match List.lookup k fs with
  | some v => if truthy v then some v else none
  | none => none

/-- The name alias priority list. -/
def nameAliases : List String :=
  ["location_name", "location", "name", "city", "city_name", "address"]

/-- First truthy value among coordinate aliases that parses as a float;
a truthy value that fails to parse is discarded and the next alias is
tried. -/
def firstFloat (fs : List (String × Val)) (keys : List String) : Option ℚ :=
  firstSome (fun k => (pyGetT fs k).bind pyFloat) keys

/-- `_extract_location_info`.  Returns `none` when the record yields
neither a truthy name nor a truthy (nonzero) coordinate pair. -/
def extractLocationInfo (fs : List (String × Val)) : Option LocInfo :=
  let name0 := (firstSome (pyGetT fs) nameAliases).map pyStr
  -- `if not location_info.get('name') and record['city_name']:` — kept
  -- although subsumed by the alias list above
  let name1 := match name0 with
    | some n => some n
    | none => (pyGetT fs "city_name").map pyStr
  let city := (firstSome (pyGetT fs) ["city", "city_name"]).map pyStr
  let lat0 := firstFloat fs ["latitude", "lat"]
  let lon0 := firstFloat fs ["longitude", "lon"]
  let lat := if lat0.isSome && lon0.isSome then lat0 else none
  let lon := if lat0.isSome && lon0.isSome then lon0 else none
  let address := (pyGetT fs "address").map pyStr
  let name2 :=
    if !strTruthy name1 && (numTruthy lat && numTruthy lon) then
      some (if strTruthy city then
        (city.getD "") ++ " (" ++ formatFixed 4 (lat.getD 0) ++ ", " ++
          formatFixed 4 (lon.getD 0) ++ ")"
      else
        "Location (" ++ formatFixed 4 (lat.getD 0) ++ ", " ++
          formatFixed 4 (lon.getD 0) ++ ")")
    else name1
  if !strTruthy name2 && !(numTruthy lat && numTruthy lon) then none
  else some ⟨name2, city, address, lat, lon⟩

/-- `_create_location_key`. -/
def createLocationKey (info : LocInfo) : String :=
  if numTruthy info.latitude && numTruthy info.longitude then
    "coord_" ++ formatFixed 6 (info.latitude.getD 0) ++ "_" ++
      formatFixed 6 (info.longitude.getD 0)
  else if strTruthy info.name && strTruthy info.city then
    "name_" ++ strLower (info.name.getD "") ++ "_" ++ strLower (info.city.getD "")
  else if strTruthy info.name then
    "name_" ++ strLower (info.name.getD "")
  else
    "coord_" ++ formatFixed 6 (info.latitude.getD 0) ++ "_" ++
      formatFixed 6 (info.longitude.getD 0)

/-! The Unit Normalizer and temperature alias search of the
multi-location path. -/

/-- Collapse a fetched Python `None` value into "not found", as the
`temperature is None` checks do. -/
def denull : Option Val → Option Val
  | some vNull => none
  | o => o

/-- The temperature alias search of the multi-location path: nested
`main.temp` / `main.temp_min` first (only when `main` is a dict), then
top-level `temp` / `temperature` / `temp_min`.  Each chain takes the
first present key; a fetched `None` falls through to the next chain. -/
def extractTempVal (fs : List (String × Val)) : Option Val :=
  let fromMain :=
    match List.lookup "main" fs with
    | some (vObj m) =>
      (match List.lookup "temp" m with
       | some v => some v
       | none => List.lookup "temp_min" m)
    | _ => none
  match denull fromMain with
  | some v => some v
  | none =>
    denull
      (match List.lookup "temp" fs with
       | some v => some v
       | none =>
         match List.lookup "temperature" fs with
         | some v => some v
         | none => List.lookup "temp_min" fs)

/-! The Record Builder for both ingestion modes. -/

/-- A stored weather sample row.  `description` and `icon` keep the raw
value that the source passes to the constructor (`vNull` models SQL
`NULL`). -/
structure WeatherRecord where
  location_id : Int
  temperature : Option ℚ
  humidity : Option ℚ
  pressure : Option ℚ
  wind_speed : Option ℚ
  wind_direction : Option ℚ
  description : Val
  icon : Val
  recorded_at : DT

/-- `float(record.get(k, 0)) if record.get(k) else None`: `none` of the
outer option models a conversion exception (record skipped). -/
def optNumSingle (fs : List (String × Val)) (k : String) : Option (Option ℚ) :=
  match List.lookup k fs with
  | some v => if truthy v then (pyFloat v).map some else some none
  | none => some none

/-- The single-location Record Builder (the `WeatherRecord(...)` call of
`upload_historical_data`); `none` models a per-record exception. -/
def buildSingleRecord (lid : Int) (dt : DT) (fs : List (String × Val)) :
    Option WeatherRecord :=
  match (List.lookup "temperature" fs).bind pyFloat, optNumSingle fs "humidity",
      optNumSingle fs "pressure", optNumSingle fs "wind_speed",
      optNumSingle fs "wind_direction" with
  | some t, some h, some p, some ws, some wd =>
    some { location_id := lid, temperature := some t, humidity := h, pressure := p,
           wind_speed := ws, wind_direction := wd,
           description := (List.lookup "description" fs).getD (vStr "Historical data"),
           icon := (List.lookup "icon" fs).getD (vStr "01d"),
           recorded_at := dt }
  | _, _, _, _, _ => none

/-- `record.get(outer, {}).get(inner, dflt)`: `none` models the
`AttributeError` raised when `outer` is present but not a dict. -/
def objGet2 (fs : List (String × Val)) (outer inner : String) (dflt : Val) : Option Val :=
  match List.lookup outer fs with
  | none => some dflt
  | some (vObj m) => some ((List.lookup inner m).getD dflt)
  | some _ => none

/-- One optional numeric field of the multi-location Record Builder:
`float(record.get(k, record.get(outer, {}).get(inner, 0))) if
record.get(k) or record.get(outer, {}).get(inner) else None`. -/
def optNumMulti (fs : List (String × Val)) (k outer inner : String) :
    Option (Option ℚ) :=
  let cond : Option Bool :=
    if truthyOpt (List.lookup k fs) then some true
    else (objGet2 fs outer inner vNull).map truthy
  match cond with
  | none => none
  | some false => some none
  | some true =>
    match objGet2 fs outer inner (vNum 0) with
    | none => none
    | some fb =>
      match pyFloat ((List.lookup k fs).getD fb) with
      | none => none
      | some q => some (some q)

/-- `record.get('weather', [{}])[0].get(inner, dflt) if
record.get('weather') else dflt` — the default expression for
`description`/`icon` of the multi-location Record Builder. -/
def weatherSub (fs : List (String × Val)) (inner : String) (dflt : Val) : Option Val :=
  if truthyOpt (List.lookup "weather" fs) then
    match List.lookup "weather" fs with
    | some (vArr (vObj w0 :: _)) => some ((List.lookup inner w0).getD dflt)
    | _ => none
  else some dflt

/-- The multi-location Record Builder (the temperature conversion at
line 240 and the `WeatherRecord(...)` call of
`upload_multi_location_historical_data`).  `tv` is the raw temperature
value found by `extractTempVal`; `none` models a per-record exception. -/
def buildMultiRecord (lid : Int) (dt : DT) (tv : Val) (fs : List (String × Val)) :
    Option WeatherRecord :=
  match (if truthy tv then (pyFloat tv).map (fun t => some ((t - 32) * 5 / 9))
         else some none) with
  | none => none
  | some tc =>
    match optNumMulti fs "humidity" "main" "humidity" with
    | none => none
    | some h =>
      match optNumMulti fs "pressure" "main" "pressure" with
      | none => none
      | some p =>
        match optNumMulti fs "wind_speed" "wind" "speed" with
        | none => none
        | some ws =>
          match optNumMulti fs "wind_direction" "wind" "deg" with
          | none => none
          | some wd =>
            match weatherSub fs "description" (vStr "Historical data") with
            | none => none
            | some ddflt =>
              match weatherSub fs "icon" (vStr "01d") with
              | none => none
              | some idflt =>
                some { location_id := lid, temperature := tc, humidity := h,
                       pressure := p, wind_speed := ws, wind_direction := wd,
                       description := (List.lookup "description" fs).getD ddflt,
                       icon := (List.lookup "icon" fs).getD idflt,
                       recorded_at := dt }

/-! The Batch Ingestor: `upload_historical_data` (single-location mode)
and `upload_multi_location_historical_data` (multi-location mode).
A record that is not a JSON object always raises on its first
subscript/membership test and is counted as an error skip in every pass
that touches it. -/

/-- The Duplicate Guard: is a sample for `(lid, dt)` already stored? -/
def dupHit (store : List WeatherRecord) (lid : Int) (dt : DT) : Bool :=
  store.any (fun w => decide (w.location_id = lid) && decide (w.recorded_at = dt))

/-- First present date field among `date`, `dt`, `dt_iso`. -/
def dateFieldOf (fs : List (String × Val)) : Option String :=
  firstSome (fun k => if (List.lookup k fs).isSome then some k else none)
    ["date", "dt", "dt_iso"]

/-- The single-location validation prefix: required fields present and
date parsed.  `none` collapses the two error-skip outcomes (missing
fields, invalid date). -/
def preSingle (fs : List (String × Val)) : Option DT :=
  match dateFieldOf fs with
  | none => none
  | some k =>
    if (List.lookup "temperature" fs).isSome then
      parseDateVal ((List.lookup k fs).getD vNull)
    else none

/-- Mutable per-batch state: the store plus the report counters. -/
structure SState where
  store : List WeatherRecord
  stored : Nat
  skipped : Nat
  errors : Nat

/-- Skip the record and append an error entry. -/
def skipErrS (st : SState) : SState :=
  { st with skipped := st.skipped + 1, errors := st.errors + 1 }

/-- Skip the record as a duplicate (no error entry). -/
def skipDupS (st : SState) : SState := { st with skipped := st.skipped + 1 }

/-- One loop iteration of `upload_historical_data`. -/
def stepSingle (lid : Int) (st : SState) (r : Val) : SState :=
  match r with
  | vObj fs =>
    (match preSingle fs with
     | none => skipErrS st
     | some dt =>
       if dupHit st.store lid dt then skipDupS st
       else
         match buildSingleRecord lid dt fs with
         | none => skipErrS st
         | some w => { st with store := st.store ++ [w], stored := st.stored + 1 })
  | _ => skipErrS st

/-- `upload_historical_data` on an already-decoded list of records; the
returned state carries the final store and the report counters
(`total_records` is the batch length). -/
def runSingle (lid : Int) (store0 : List WeatherRecord) (batch : List Val) : SState :=
  batch.foldl (stepSingle lid) ⟨store0, 0, 0, 0⟩

/-- State of the first (location-analysis) pass of the multi-location
mode: the resolution cache plus the counters it touches. -/
structure P1State where
  mapping : List (String × Option Location)
  skipped : Nat
  errors : Nat

/-- `_extract_location_info` guarded by the record being a dict (a
non-dict record raises and is skipped). -/
def recInfo : Val → Option LocInfo
  | vObj fs => extractLocationInfo fs
  | _ => none

/-- One iteration of the first pass: extract the descriptor, memoize
resolution per cache key, count a skip when extraction or resolution
fails. -/
def pass1Step (u : Int) (locs : List Location) (st : P1State) (r : Val) : P1State :=
  match recInfo r with
  | none => { st with skipped := st.skipped + 1, errors := st.errors + 1 }
  | some info =>
    let k := createLocationKey info
    match List.lookup k st.mapping with
    | some v =>
      if v.isSome then st
      else { st with skipped := st.skipped + 1, errors := st.errors + 1 }
    | none =>
      let res := findMatchingLocation u info locs
      if res.isSome then { st with mapping := st.mapping ++ [(k, res)] }
      else
        { mapping := st.mapping ++ [(k, res)],
          skipped := st.skipped + 1, errors := st.errors + 1 }

/-- The first pass over the whole batch. -/
def runPass1 (u : Int) (locs : List Location) (batch : List Val) : P1State :=
  batch.foldl (pass1Step u locs) ⟨[], 0, 0⟩

/-- Outcome of the validation prefix of one second-pass iteration. -/
inductive P2Dec : Type where
  | skipErr : P2Dec
  | silent : P2Dec
  | toStore : Location → DT → Option WeatherRecord → P2Dec

/-- The store-independent prefix of one second-pass iteration: required
fields, descriptor, cache lookup, date parse, then hand over to the
duplicate check with the built record.  `skipErr` covers the error-skip
outcomes (including the `KeyError`/`AttributeError` paths), `silent` the
`if not location: continue` path, whose skip was already counted in the
first pass. -/
def p2classify (m : List (String × Option Location)) (r : Val) : P2Dec :=
  match r with
  | vObj fs =>
    match dateFieldOf fs, extractTempVal fs with
    | some dk, some tv =>
      (match extractLocationInfo fs with
       | none => .skipErr
       | some info =>
         match List.lookup (createLocationKey info) m with
         | none => .skipErr
         | some none => .silent
         | some (some loc) =>
           match parseDateVal ((List.lookup dk fs).getD vNull) with
           | none => .skipErr
           | some dt => .toStore loc dt (buildMultiRecord loc.id dt tv fs))
    | _, _ => .skipErr
  | _ => .skipErr

/-- One iteration of the second pass of the multi-location mode. -/
def pass2Step (m : List (String × Option Location)) (st : SState) (r : Val) : SState :=
  match p2classify m r with
  | .skipErr => skipErrS st
  | .silent => st
  | .toStore loc dt bw =>
    if dupHit st.store loc.id dt then skipDupS st
    else
      match bw with
      | none => skipErrS st
      | some w => { st with store := st.store ++ [w], stored := st.stored + 1 }

/-- The report of `upload_multi_location_historical_data` together with
the final store. -/
structure MultiResult where
  store : List WeatherRecord
  total : Nat
  stored : Nat
  skipped : Nat
  errors : Nat
  locations_processed : Nat

/-- `upload_multi_location_historical_data` on an already-decoded list
of records: first pass builds the resolution cache and counts its skips,
second pass stores; `locations_processed` is `len(location_mapping)`. -/
def runMulti (u : Int) (locs : List Location) (store0 : List WeatherRecord)
    (batch : List Val) : MultiResult :=
  let p1 := runPass1 u locs batch
  let p2 := batch.foldl (pass2Step p1.mapping) ⟨store0, 0, p1.skipped, p1.errors⟩
  { store := p2.store, total := batch.length, stored := p2.stored,
    skipped := p2.skipped, errors := p2.errors,
    locations_processed := p1.mapping.length }

/-! Counting, cache-stability and store-growth lemmas for the
multi-location ingestor. -/

/-- The record's descriptor key resolved to no Location in the cache
(the silently-continued case of the second pass, already counted as a
skip by the first pass). -/
def unresolvedKey (m : List (String × Option Location)) (r : Val) : Bool :=
  match recInfo r with
  | some info =>
    (match List.lookup (createLocationKey info) m with
     | some none => true
     | _ => false)
  | none => false

/-- Did the coordinate alias search produce a pair of nonzero floats?
(The truthiness test of the source treats a parsed `0.0` like an absent
coordinate.) -/
def coordPairTruthy (fs : List (String × Val)) : Bool :=
  match firstFloat fs ["latitude", "lat"], firstFloat fs ["longitude", "lon"] with
  | some la, some lo => decide (la ≠ 0) && decide (lo ≠ 0)
  | _, _ => false

/-! Lemmas for the `locations_processed` claim: the cache keys are the
first-occurrence deduplication of the batch's descriptor keys. -/

/-- The descriptor cache key of every record whose descriptor extraction
succeeds, in batch order. -/
def batchKeys (batch : List Val) : List String :=
  batch.filterMap (fun r => (recInfo r).map createLocationKey)

/-- Append the key if it is not present yet (first occurrence wins). -/
def insertNew (acc : List String) (k : String) : List String :=
  if k ∈ acc then acc else acc ++ [k]

/-- First-occurrence deduplication; its length is the number of distinct
keys. -/
def dedupFirst (l : List String) : List String := l.foldl insertNew []

/-! Concrete fixtures used by the claim counterexamples and witnesses. -/

/-- Scenario A record: `{"date": "2024-01-15", "temperature": 59.0}`. -/
def cRecA : Val := vObj [("date", vStr "2024-01-15"), ("temperature", vNum 59)]

/-- 2024-01-15 00:00:00. -/
def cDT0 : DT := ⟨2024, 1, 15, 0, 0, 0⟩

/-- A stored Location of user 1. -/
def cLocParis : Location :=
  { id := 5, user_id := 1, name := "Paris Trip", city := "Paris", country := "France",
    address := none, latitude := 48.85, longitude := 2.35 }

/-- A multi-location record whose temperature is exactly 0 °F. -/
def cRecZero : Val :=
  vObj [("dt", vNum 1700000000), ("main", vObj [("temp", vNum 0)]),
    ("name", vStr "Paris")]

/-- A single-location record with no `description`/`icon` and a present
but empty-string `humidity`. -/
def cRecB : Val :=
  vObj [("date", vStr "2024-01-16"), ("temperature", vNum 59), ("humidity", vStr "")]

/-- Is the stored column value SQL `NULL`? -/
def isNullVal : Val → Bool
  | vNull => true
  | _ => false

/-- Field list of Scenario A. -/
def cFsA : List (String × Val) := [("date", vStr "2024-01-15"), ("temperature", vNum 59)]

/-- Scenario A's built sample (temperature stored unconverted). -/
def cWA : WeatherRecord :=
  { location_id := 7, temperature := some 59, humidity := none, pressure := none,
    wind_speed := none, wind_direction := none,
    description := vStr "Historical data", icon := vStr "01d", recorded_at := cDT0 }

/-- A record with a present, truthy, non-numeric `humidity`. -/
def cFsBad : List (String × Val) :=
  [("date", vStr "2024-01-15"), ("temperature", vNum 59), ("humidity", vStr "wet")]

/-- The multi-mode sample built from a bare 50 °F temperature. -/
def cWM : WeatherRecord :=
  { location_id := 3, temperature := some 10, humidity := none, pressure := none,
    wind_speed := none, wind_direction := none,
    description := vStr "Historical data", icon := vStr "01d", recorded_at := cDT0 }

/-- Coordinates-only record for the synthesized-name witness. -/
def cFsCoord : List (String × Val) :=
  [("lat", vNum (377272 / 10000)), ("lon", vNum (-1224973 / 10000))]

/-- A name-only descriptor. -/
def cInfoParis : LocInfo :=
  { name := some "Paris", city := none, address := none, latitude := none,
    longitude := none }

/-- One-record batch whose descriptor resolves to no stored Location. -/
def cBatchP : List Val := [vObj [("name", vStr "Paris")]]

/-- The number of cache entries that resolved to a stored Location. -/
def resolvedEntries (u : Int) (locs : List Location) (batch : List Val) : Nat :=
  ((runPass1 u locs batch).mapping.filter (fun p => p.2.isSome)).length

/-- 2024-01-16 00:00:00. -/
def cDT1 : DT := ⟨2024, 1, 16, 0, 0, 0⟩

/-- Field list of the record with a present empty-string humidity. -/
def cFsB : List (String × Val) :=
  [("date", vStr "2024-01-16"), ("temperature", vNum 59), ("humidity", vStr "")]

/-- The sample built from `cFsB`: the falsy humidity is stored as
absent. -/
def cWB : WeatherRecord :=
  { location_id := 7, temperature := some 59, humidity := none, pressure := none,
    wind_speed := none, wind_direction := none,
    description := vStr "Historical data", icon := vStr "01d", recorded_at := cDT1 }

/-- Multi-mode field list with a present humidity of 0 (falsy). -/
def cFsM0 : List (String × Val) := [("humidity", vNum 0)]

/-- Multi-mode field list with a present truthy non-numeric humidity. -/
def cFsMBad : List (String × Val) := [("humidity", vStr "wet")]

theorem natChars_ne_nil (n : Nat) : natChars n ≠ [] := by
  unfold natChars natCharsAux
  split
  · simp
  · simp

theorem pyStr_truthy_ne_empty (v : Val) (h : truthy v = true) : pyStr v ≠ "" := by
  cases v with
  | vStr s => simpa [truthy, pyStr] using h
  | vNum q =>
    simp only [pyStr, ratRender]
    intro heq
    have h2 : ((if q < 0 then ['-'] else []) ++ natChars q.num.natAbs ++
        (if q.den = 1 then ['.', '0'] else '/' :: natChars q.den)) = ([] : List Char) := by
      simpa [String.ext_iff] using heq
    rcases List.append_eq_nil.mp h2 with ⟨h3, -⟩
    rcases List.append_eq_nil.mp h3 with ⟨-, h4⟩
    exact natChars_ne_nil _ h4
  | vBool b => cases b <;> simp_all [truthy, pyStr]
  | vNull => simp_all [truthy]
  | vArr l => simp [pyStr]
  | vObj l => simp [pyStr]

theorem splitOnChar_ne_nil (c : Char) (l : List Char) : splitOnChar c l ≠ [] := by
  induction l with
  | nil => simp [splitOnChar]
  | cons x xs ih =>
    simp only [splitOnChar]
    split
    · simp
    · split
      · simp
      · simp

/-- If the separator does not occur, the split is the whole list. -/
theorem splitOnChar_not_mem {c : Char} {l : List Char} (h : c ∉ l) :
    splitOnChar c l = [l] := by
  induction l with
  | nil => rfl
  | cons x xs ih =>
    simp only [List.mem_cons, not_or] at h
    simp only [splitOnChar, ih h.2]
    rw [if_neg (fun hx => h.1 hx.symm)]

/-- Every element of the list is either a piece member or the separator. -/
theorem splitOnChar_mem {c : Char} {l : List Char} {x : Char} (hx : x ∈ l) :
    x = c ∨ ∃ p ∈ splitOnChar c l, x ∈ p := by
  induction l with
  | nil => cases hx
  | cons y ys ih =>
    rcases List.mem_cons.mp hx with rfl | hmem
    · by_cases hyc : x = c
      · exact Or.inl hyc
      · refine Or.inr ?_
        simp only [splitOnChar, if_neg hyc]
        rcases hr : splitOnChar c ys with _ | ⟨p, ps⟩
        · exact ⟨[x], by simp⟩
        · exact ⟨x :: p, by simp⟩
    · rcases ih hmem with hc | ⟨p, hp, hxp⟩
      · exact Or.inl hc
      · refine Or.inr ?_
        simp only [splitOnChar]
        split
        · exact ⟨p, by simp [hp], hxp⟩
        · rcases hr : splitOnChar c ys with _ | ⟨q, qs⟩
          · rw [hr] at hp; cases hp
          · rw [hr] at hp
            rcases List.mem_cons.mp hp with rfl | hps
            · exact ⟨‹Char› :: p, by simp, by simp [hxp]⟩
            · exact ⟨p, by simp [hps], hxp⟩

/-! Generic helper lemmas about the list combinators used above. -/

theorem firstSome_eq_none {α β : Type} {f : α → Option β} {l : List α} :
    firstSome f l = none ↔ ∀ a ∈ l, f a = none := by
  induction l with
  | nil => simp [firstSome]
  | cons a as ih =>
    simp only [firstSome]
    cases ha : f a with
    | some b => simp [ha]
    | none => simpa [ha] using ih

theorem firstSome_some {α β : Type} {f : α → Option β} {l : List α} {b : β}
    (h : firstSome f l = some b) : ∃ a ∈ l, f a = some b := by
  induction l with
  | nil => simp [firstSome] at h
  | cons a as ih =>
    simp only [firstSome] at h
    cases ha : f a with
    | some c =>
      rw [ha] at h
      simp only [] at h
      exact ⟨a, by simp, by rw [ha]; exact h⟩
    | none =>
      rw [ha] at h
      simp only [] at h
      rcases ih h with ⟨x, hx, hfx⟩
      exact ⟨x, by simp [hx], hfx⟩

theorem lookup_append_some {β : Type} {l1 l2 : List (String × β)} {k : String} {v : β}
    (h : List.lookup k l1 = some v) : List.lookup k (l1 ++ l2) = some v := by
  induction l1 with
  | nil => simp [List.lookup] at h
  | cons p ps ih =>
    rcases p with ⟨a, b⟩
    rw [List.cons_append]
    by_cases hk : k = a
    · simp_all [List.lookup]
    · simp_all [List.lookup, beq_false_of_ne hk]

theorem lookup_append_none {β : Type} {l1 l2 : List (String × β)} {k : String}
    (h : List.lookup k l1 = none) : List.lookup k (l1 ++ l2) = List.lookup k l2 := by
  induction l1 with
  | nil => simp
  | cons p ps ih =>
    rcases p with ⟨a, b⟩
    rw [List.cons_append]
    by_cases hk : k = a
    · simp_all [List.lookup]
    · have hb : (k == a) = false := beq_false_of_ne hk
      simp only [List.lookup, hb] at h ⊢
      exact ih h

theorem lookup_eq_none_iff {β : Type} {l : List (String × β)} {k : String} :
    List.lookup k l = none ↔ k ∉ l.map Prod.fst := by
  induction l with
  | nil => simp
  | cons p ps ih =>
    rcases p with ⟨a, b⟩
    simp only [List.lookup, List.map_cons, List.mem_cons]
    by_cases hk : k = a
    · simp [hk]
    · simp [beq_false_of_ne hk, hk, ih]

theorem mem_dropWhile {p : Char → Bool} {l : List Char} {x : Char}
    (hx : x ∈ l) (hpx : p x = false) : x ∈ l.dropWhile p := by
  induction l with
  | nil => cases hx
  | cons a as ih =>
    rcases List.mem_cons.mp hx with rfl | hmem
    · rw [List.dropWhile_cons, hpx]
      simp
    · rw [List.dropWhile_cons]
      cases hpa : p a with
      | true => simpa using ih hmem
      | false => simp [hmem]

theorem mem_trimWs {l : List Char} {x : Char}
    (hx : x ∈ l) (hw : x.isWhitespace = false) : x ∈ trimWs l := by
  unfold trimWs
  rw [List.mem_reverse]
  exact mem_dropWhile (by simpa using mem_dropWhile hx hw) hw

theorem length_filter_split {α : Type} (p : α → Bool) (l : List α) :
    (l.filter p).length + (l.filter (fun a => !p a)).length = l.length := by
  induction l with
  | nil => simp
  | cons a as ih =>
    cases ha : p a <;> simp [List.filter_cons, ha] <;> omega

/-! Counting and store-growth lemmas for the single-location ingestor. -/

theorem stepSingle_count (lid : Int) (st : SState) (r : Val) :
    (stepSingle lid st r).stored + (stepSingle lid st r).skipped
      = st.stored + st.skipped + 1 := by
  cases r with
  | vObj fs =>
    simp only [stepSingle]
    cases hp : preSingle fs with
    | none => simp [skipErrS]; omega
    | some dt =>
      by_cases hd : dupHit st.store lid dt
      · simp [hd, skipDupS]; omega
      · simp only [hd, Bool.false_eq_true, if_false]
        cases hb : buildSingleRecord lid dt fs with
        | none => simp [skipErrS]; omega
        | some w => simp; omega
  | vNull => simp [stepSingle, skipErrS]; omega
  | vBool b => simp [stepSingle, skipErrS]; omega
  | vNum q => simp [stepSingle, skipErrS]; omega
  | vStr s => simp [stepSingle, skipErrS]; omega
  | vArr l => simp [stepSingle, skipErrS]; omega

theorem foldSingle_count (lid : Int) (l : List Val) :
    ∀ st : SState,
      (l.foldl (stepSingle lid) st).stored + (l.foldl (stepSingle lid) st).skipped
        = st.stored + st.skipped + l.length := by
  induction l with
  | nil => intro st; simp
  | cons r rs ih =>
    intro st
    rw [List.foldl_cons]
    have h1 := stepSingle_count lid st r
    have h2 := ih (stepSingle lid st r)
    simp only [List.length_cons]
    omega

theorem stepSingle_store_ext (lid : Int) (st : SState) (r : Val) :
    ∃ ext, (stepSingle lid st r).store = st.store ++ ext := by
  cases r with
  | vObj fs =>
    simp only [stepSingle]
    cases hp : preSingle fs with
    | none => exact ⟨[], by simp [skipErrS]⟩
    | some dt =>
      by_cases hd : dupHit st.store lid dt
      · exact ⟨[], by simp [hd, skipDupS]⟩
      · simp only [hd, Bool.false_eq_true, if_false]
        cases hb : buildSingleRecord lid dt fs with
        | none => exact ⟨[], by simp [skipErrS]⟩
        | some w => exact ⟨[w], by simp⟩
  | vNull => exact ⟨[], by simp [stepSingle, skipErrS]⟩
  | vBool b => exact ⟨[], by simp [stepSingle, skipErrS]⟩
  | vNum q => exact ⟨[], by simp [stepSingle, skipErrS]⟩
  | vStr s => exact ⟨[], by simp [stepSingle, skipErrS]⟩
  | vArr l => exact ⟨[], by simp [stepSingle, skipErrS]⟩

theorem foldSingle_store_ext (lid : Int) (l : List Val) :
    ∀ st : SState, ∃ ext, (l.foldl (stepSingle lid) st).store = st.store ++ ext := by
  induction l with
  | nil => intro st; exact ⟨[], by simp⟩
  | cons r rs ih =>
    intro st
    rw [List.foldl_cons]
    rcases stepSingle_store_ext lid st r with ⟨e1, he1⟩
    rcases ih (stepSingle lid st r) with ⟨e2, he2⟩
    exact ⟨e1 ++ e2, by rw [he2, he1, List.append_assoc]⟩

theorem dupHit_append {store ext : List WeatherRecord} {lid : Int} {dt : DT}
    (h : dupHit store lid dt = true) : dupHit (store ++ ext) lid dt = true := by
  simp only [dupHit, List.any_append, Bool.or_eq_true]
  exact Or.inl h

theorem buildSingle_loc_dt {lid : Int} {dt : DT} {fs : List (String × Val)}
    {w : WeatherRecord} (h : buildSingleRecord lid dt fs = some w) :
    w.location_id = lid ∧ w.recorded_at = dt := by
  unfold buildSingleRecord at h
  split at h
  · cases h; exact ⟨rfl, rfl⟩
  · cases h

/-- After the single-location ingestor has processed a record that
validates and builds, the store contains its `(location, instant)` key. -/
theorem stepSingle_key_present {lid : Int} {st : SState} {fs : List (String × Val)}
    {dt : DT} {w : WeatherRecord} (hp : preSingle fs = some dt)
    (hb : buildSingleRecord lid dt fs = some w) :
    dupHit (stepSingle lid st (vObj fs)).store lid dt = true := by
  simp only [stepSingle, hp]
  by_cases hd : dupHit st.store lid dt
  · simp [hd, skipDupS]
  · simp only [hd, Bool.false_eq_true, if_false, hb]
    rcases buildSingle_loc_dt hb with ⟨h1, h2⟩
    simp [dupHit, List.any_append, h1, h2]

theorem foldSingle_key_present (lid : Int) (l : List Val) :
    ∀ st : SState, ∀ r ∈ l, ∀ fs dt w, r = vObj fs → preSingle fs = some dt →
      buildSingleRecord lid dt fs = some w →
      dupHit (l.foldl (stepSingle lid) st).store lid dt = true := by
  induction l with
  | nil => intro st r hr; cases hr
  | cons a as ih =>
    intro st r hr fs dt w hre hp hb
    rw [List.foldl_cons]
    rcases List.mem_cons.mp hr with rfl | hmem
    · subst hre
      rcases foldSingle_store_ext lid as (stepSingle lid st (vObj fs)) with ⟨ext, hext⟩
      rw [hext]
      exact dupHit_append (stepSingle_key_present hp hb)
    · exact ih (stepSingle lid st a) r hmem fs dt w hre hp hb

/-- If every storable record of the batch is already present in the
store, a single-location run neither stores anything nor changes the
store. -/
theorem foldSingle_no_new (lid : Int) (l : List Val) :
    ∀ st : SState,
      (∀ r ∈ l, ∀ fs dt w, r = vObj fs → preSingle fs = some dt →
        buildSingleRecord lid dt fs = some w → dupHit st.store lid dt = true) →
      (l.foldl (stepSingle lid) st).stored = st.stored ∧
        (l.foldl (stepSingle lid) st).store = st.store := by
  induction l with
  | nil => intro st _; exact ⟨rfl, rfl⟩
  | cons a as ih =>
    intro st hall
    rw [List.foldl_cons]
    have hstep : (stepSingle lid st a).stored = st.stored ∧
        (stepSingle lid st a).store = st.store := by
      cases a with
      | vObj fs =>
        simp only [stepSingle]
        cases hp : preSingle fs with
        | none => simp [skipErrS]
        | some dt =>
          by_cases hd : dupHit st.store lid dt
          · simp [hd, skipDupS]
          · simp only [hd, Bool.false_eq_true, if_false]
            cases hb : buildSingleRecord lid dt fs with
            | none => simp [skipErrS]
            | some w =>
              exact absurd (hall (vObj fs) (by simp) fs dt w rfl hp hb) (by simp [hd])
      | vNull => simp [stepSingle, skipErrS]
      | vBool b => simp [stepSingle, skipErrS]
      | vNum q => simp [stepSingle, skipErrS]
      | vStr s => simp [stepSingle, skipErrS]
      | vArr l => simp [stepSingle, skipErrS]
    have hall2 : ∀ r ∈ as, ∀ fs dt w, r = vObj fs → preSingle fs = some dt →
        buildSingleRecord lid dt fs = some w →
        dupHit (stepSingle lid st a).store lid dt = true := by
      intro r hmem fs dt w hre hp hb
      rw [hstep.2]
      exact hall r (by simp [hmem]) fs dt w hre hp hb
    rcases ih (stepSingle lid st a) hall2 with ⟨h1, h2⟩
    exact ⟨by rw [h1, hstep.1], by rw [h2, hstep.2]⟩

theorem p2classify_silent {m : List (String × Option Location)} {r : Val}
    (h : p2classify m r = P2Dec.silent) : unresolvedKey m r = true := by
  unfold p2classify at h
  repeat' split at h
  all_goals try cases h
  simp_all [unresolvedKey, recInfo]

theorem pass2Step_silent {m : List (String × Option Location)} {st : SState} {r : Val}
    (h : p2classify m r = P2Dec.silent) : pass2Step m st r = st := by
  simp [pass2Step, h]

theorem pass2Step_count_nonsilent {m : List (String × Option Location)} {st : SState}
    {r : Val} (h : p2classify m r ≠ P2Dec.silent) :
    (pass2Step m st r).stored + (pass2Step m st r).skipped
      = st.stored + st.skipped + 1 := by
  cases hc : p2classify m r with
  | skipErr => simp [pass2Step, hc, skipErrS]; omega
  | silent => exact absurd hc h
  | toStore loc dt bw =>
    simp only [pass2Step, hc]
    by_cases hd : dupHit st.store loc.id dt
    · simp [hd, skipDupS]; omega
    · simp only [hd, Bool.false_eq_true, if_false]
      cases bw with
      | none => simp [skipErrS]; omega
      | some w => simp; omega

theorem pass2Step_store_ext (m : List (String × Option Location)) (st : SState) (r : Val) :
    ∃ ext, (pass2Step m st r).store = st.store ++ ext := by
  cases hc : p2classify m r with
  | skipErr => exact ⟨[], by simp [pass2Step, hc, skipErrS]⟩
  | silent => exact ⟨[], by simp [pass2Step, hc]⟩
  | toStore loc dt bw =>
    simp only [pass2Step, hc]
    by_cases hd : dupHit st.store loc.id dt
    · exact ⟨[], by simp [hd, skipDupS]⟩
    · simp only [hd, Bool.false_eq_true, if_false]
      cases bw with
      | none => exact ⟨[], by simp [skipErrS]⟩
      | some w => exact ⟨[w], by simp⟩

theorem foldPass2_store_ext (m : List (String × Option Location)) (l : List Val) :
    ∀ st : SState, ∃ ext, (l.foldl (pass2Step m) st).store = st.store ++ ext := by
  induction l with
  | nil => intro st; exact ⟨[], by simp⟩
  | cons r rs ih =>
    intro st
    rw [List.foldl_cons]
    rcases pass2Step_store_ext m st r with ⟨e1, he1⟩
    rcases ih (pass2Step m st r) with ⟨e2, he2⟩
    exact ⟨e1 ++ e2, by rw [he2, he1, List.append_assoc]⟩

theorem buildMulti_loc_dt {lid : Int} {dt : DT} {tv : Val} {fs : List (String × Val)}
    {w : WeatherRecord} (h : buildMultiRecord lid dt tv fs = some w) :
    w.location_id = lid ∧ w.recorded_at = dt := by
  unfold buildMultiRecord at h
  repeat' split at h
  all_goals cases h
  all_goals exact ⟨rfl, rfl⟩

theorem p2classify_toStore {m : List (String × Option Location)} {r : Val}
    {loc : Location} {dt : DT} {bw : Option WeatherRecord}
    (h : p2classify m r = P2Dec.toStore loc dt bw) :
    ∃ fs tv, r = vObj fs ∧ bw = buildMultiRecord loc.id dt tv fs := by
  unfold p2classify at h
  repeat' split at h
  all_goals cases h
  exact ⟨_, _, rfl, rfl⟩

theorem pass2Step_key_present {m : List (String × Option Location)} {st : SState}
    {r : Val} {loc : Location} {dt : DT} {w : WeatherRecord}
    (hc : p2classify m r = P2Dec.toStore loc dt (some w)) :
    dupHit (pass2Step m st r).store loc.id dt = true := by
  simp only [pass2Step, hc]
  by_cases hd : dupHit st.store loc.id dt
  · simp [hd, skipDupS]
  · simp only [hd, Bool.false_eq_true, if_false]
    rcases p2classify_toStore hc with ⟨fs, tv, -, hbw⟩
    rcases buildMulti_loc_dt hbw.symm with ⟨h1, h2⟩
    simp [dupHit, List.any_append, h1, h2]

theorem foldPass2_key_present (m : List (String × Option Location)) (l : List Val) :
    ∀ st : SState, ∀ r ∈ l, ∀ loc dt w, p2classify m r = P2Dec.toStore loc dt (some w) →
      dupHit (l.foldl (pass2Step m) st).store loc.id dt = true := by
  induction l with
  | nil => intro st r hr; cases hr
  | cons a as ih =>
    intro st r hr loc dt w hc
    rw [List.foldl_cons]
    rcases List.mem_cons.mp hr with rfl | hmem
    · rcases foldPass2_store_ext m as (pass2Step m st r) with ⟨ext, hext⟩
      rw [hext]
      exact dupHit_append (pass2Step_key_present hc)
    · exact ih (pass2Step m st a) r hmem loc dt w hc

/-- If every storable record of the batch is already present in the
store, the second pass neither stores anything nor changes the store. -/
theorem foldPass2_no_new (m : List (String × Option Location)) (l : List Val) :
    ∀ st : SState,
      (∀ r ∈ l, ∀ loc dt w, p2classify m r = P2Dec.toStore loc dt (some w) →
        dupHit st.store loc.id dt = true) →
      (l.foldl (pass2Step m) st).stored = st.stored ∧
        (l.foldl (pass2Step m) st).store = st.store := by
  induction l with
  | nil => intro st _; exact ⟨rfl, rfl⟩
  | cons a as ih =>
    intro st hall
    rw [List.foldl_cons]
    have hstep : (pass2Step m st a).stored = st.stored ∧
        (pass2Step m st a).store = st.store := by
      cases hc : p2classify m a with
      | skipErr => simp [pass2Step, hc, skipErrS]
      | silent => simp [pass2Step, hc]
      | toStore loc dt bw =>
        simp only [pass2Step, hc]
        by_cases hd : dupHit st.store loc.id dt
        · simp [hd, skipDupS]
        · simp only [hd, Bool.false_eq_true, if_false]
          cases bw with
          | none => simp [skipErrS]
          | some w =>
            exact absurd (hall a (by simp) loc dt w hc) (by simp [hd])
    have hall2 : ∀ r ∈ as, ∀ loc dt w, p2classify m r = P2Dec.toStore loc dt (some w) →
        dupHit (pass2Step m st a).store loc.id dt = true := by
      intro r hmem loc dt w hc
      rw [hstep.2]
      exact hall r (by simp [hmem]) loc dt w hc
    rcases ih (pass2Step m st a) hall2 with ⟨h1, h2⟩
    exact ⟨by rw [h1, hstep.1], by rw [h2, hstep.2]⟩

theorem pass1Step_mapping_stable {u : Int} {locs : List Location} {st : P1State}
    {r : Val} {k : String} {v : Option Location}
    (h : List.lookup k st.mapping = some v) :
    List.lookup k (pass1Step u locs st r).mapping = some v := by
  cases hi : recInfo r with
  | none => simpa [pass1Step, hi] using h
  | some info =>
    simp only [pass1Step, hi]
    cases hl : List.lookup (createLocationKey info) st.mapping with
    | some v2 =>
      by_cases hs : v2.isSome <;> simpa [hs] using h
    | none =>
      by_cases hs : (findMatchingLocation u info locs).isSome <;>
        simpa [hs] using lookup_append_some h

theorem foldPass1_mapping_stable (u : Int) (locs : List Location) (l : List Val) :
    ∀ (st : P1State) {k : String} {v : Option Location},
      List.lookup k st.mapping = some v →
      List.lookup k (l.foldl (pass1Step u locs) st).mapping = some v := by
  induction l with
  | nil => intro st k v h; simpa using h
  | cons r rs ih =>
    intro st k v h
    rw [List.foldl_cons]
    exact ih (pass1Step u locs st r) (pass1Step_mapping_stable h)

theorem pass1Step_skipped_mono (u : Int) (locs : List Location) (st : P1State) (r : Val) :
    st.skipped ≤ (pass1Step u locs st r).skipped := by
  cases hi : recInfo r with
  | none => simp [pass1Step, hi]
  | some info =>
    simp only [pass1Step, hi]
    cases hl : List.lookup (createLocationKey info) st.mapping with
    | some v2 => by_cases hs : v2.isSome <;> simp [hs]
    | none =>
      by_cases hs : (findMatchingLocation u info locs).isSome <;> simp [hs]

/-- Along the first pass, every record whose key ends up unresolved in
the final cache contributed one skip. -/
theorem foldPass1_skip_count (u : Int) (locs : List Location) (l : List Val) :
    ∀ st : P1State,
      st.skipped +
          (l.filter (fun r =>
            unresolvedKey (l.foldl (pass1Step u locs) st).mapping r)).length
        ≤ (l.foldl (pass1Step u locs) st).skipped := by
  induction l with
  | nil => intro st; simp
  | cons a as ih =>
    intro st
    rw [List.foldl_cons]
    by_cases hbad :
        unresolvedKey (as.foldl (pass1Step u locs) (pass1Step u locs st a)).mapping a
    · -- the head record itself skips in its own step
      have hstep : (pass1Step u locs st a).skipped = st.skipped + 1 := by
        unfold unresolvedKey at hbad
        cases hi : recInfo a with
        | none => simp [hi] at hbad
        | some info =>
          rw [hi] at hbad
          simp only [] at hbad
          cases hfin : List.lookup (createLocationKey info)
              (as.foldl (pass1Step u locs) (pass1Step u locs st a)).mapping with
          | none => rw [hfin] at hbad; cases hbad
          | some ol =>
            rw [hfin] at hbad
            cases ol with
            | some loc => simp at hbad
            | none =>
              -- the final cache maps the key to `none`; by stability the step
              -- either saw that binding or created it, and skipped either way
              simp only [pass1Step, hi]
              cases hl : List.lookup (createLocationKey info) st.mapping with
              | some v2 =>
                have hv2 : List.lookup (createLocationKey info)
                    (pass1Step u locs st a).mapping = some v2 :=
                  pass1Step_mapping_stable hl
                have := foldPass1_mapping_stable u locs as (pass1Step u locs st a) hv2
                rw [hfin] at this
                cases this
                simp [pass1Step, hi, hl]
              | none =>
                have hnew : List.lookup (createLocationKey info)
                    (pass1Step u locs st a).mapping
                      = some (findMatchingLocation u info locs) := by
                  simp only [pass1Step, hi, hl]
                  by_cases hs : (findMatchingLocation u info locs).isSome <;>
                    simp only [hs, Bool.false_eq_true, if_true, if_false] <;>
                    · rw [lookup_append_none hl]
                      simp [List.lookup]
                have := foldPass1_mapping_stable u locs as (pass1Step u locs st a) hnew
                rw [hfin] at this
                have hres := (Option.some.inj this).symm
                rw [hres]
                simp
      have h2 := ih (pass1Step u locs st a)
      rw [List.filter_cons]
      simp only [hbad, if_true]
      simp only [List.length_cons]
      omega
    · have h2 := ih (pass1Step u locs st a)
      have h3 := pass1Step_skipped_mono u locs st a
      rw [List.filter_cons]
      simp only [hbad, Bool.false_eq_true, if_false]
      omega

theorem foldPass2_count (m : List (String × Option Location)) (l : List Val) :
    ∀ st : SState,
      st.stored + st.skipped + (l.filter (fun r => !unresolvedKey m r)).length
        ≤ (l.foldl (pass2Step m) st).stored + (l.foldl (pass2Step m) st).skipped := by
  induction l with
  | nil => intro st; simp
  | cons a as ih =>
    intro st
    rw [List.foldl_cons, List.filter_cons]
    have h2 := ih (pass2Step m st a)
    by_cases hu : unresolvedKey m a = true
    · simp only [hu, Bool.not_true, Bool.false_eq_true, if_false]
      have hmono : st.stored + st.skipped
          ≤ (pass2Step m st a).stored + (pass2Step m st a).skipped := by
        cases hc : p2classify m a with
        | silent => simp [pass2Step, hc]
        | skipErr => simp [pass2Step, hc, skipErrS]
        | toStore loc dt bw =>
          simp only [pass2Step, hc]
          by_cases hd : dupHit st.store loc.id dt
          · simp [hd, skipDupS]
          · simp only [hd, Bool.false_eq_true, if_false]
            cases bw with
            | none => simp [skipErrS]
            | some w => simp
      omega
    · have hns : p2classify m a ≠ P2Dec.silent := by
        intro hc
        exact hu (p2classify_silent hc)
      have h1 := @pass2Step_count_nonsilent m st a hns
      simp only [eq_false_of_ne_true hu, Bool.not_false, if_true, List.length_cons]
      omega

/-! Run-level lemmas assembling the per-pass facts. -/

theorem runSingle_conservation (lid : Int) (store0 : List WeatherRecord)
    (batch : List Val) :
    (runSingle lid store0 batch).stored + (runSingle lid store0 batch).skipped
      = batch.length := by
  have := foldSingle_count lid batch ⟨store0, 0, 0, 0⟩
  simpa [runSingle] using this

theorem runMulti_ge (u : Int) (locs : List Location) (store0 : List WeatherRecord)
    (batch : List Val) :
    batch.length
      ≤ (runMulti u locs store0 batch).stored + (runMulti u locs store0 batch).skipped := by
  have h1 := foldPass1_skip_count u locs batch ⟨[], 0, 0⟩
  have h2 := foldPass2_count (runPass1 u locs batch).mapping batch
      ⟨store0, 0, (runPass1 u locs batch).skipped, (runPass1 u locs batch).errors⟩
  have h3 := length_filter_split
      (fun r => unresolvedKey (runPass1 u locs batch).mapping r) batch
  simp only [runMulti, runPass1] at *
  omega

theorem runSingle_idem (lid : Int) (store0 : List WeatherRecord) (batch : List Val) :
    (runSingle lid (runSingle lid store0 batch).store batch).stored = 0 ∧
      (runSingle lid (runSingle lid store0 batch).store batch).store
        = (runSingle lid store0 batch).store := by
  have hkey := foldSingle_key_present lid batch ⟨store0, 0, 0, 0⟩
  have h := foldSingle_no_new lid batch
      ⟨(runSingle lid store0 batch).store, 0, 0, 0⟩
      (by
        intro r hmem fs dt w hre hp hb
        exact hkey r hmem fs dt w hre hp hb)
  simpa [runSingle] using h

theorem runMulti_idem (u : Int) (locs : List Location) (store0 : List WeatherRecord)
    (batch : List Val) :
    (runMulti u locs (runMulti u locs store0 batch).store batch).stored = 0 ∧
      (runMulti u locs (runMulti u locs store0 batch).store batch).store
        = (runMulti u locs store0 batch).store := by
  have hkey := foldPass2_key_present (runPass1 u locs batch).mapping batch
      ⟨store0, 0, (runPass1 u locs batch).skipped, (runPass1 u locs batch).errors⟩
  have h := foldPass2_no_new (runPass1 u locs batch).mapping batch
      ⟨(runMulti u locs store0 batch).store, 0, (runPass1 u locs batch).skipped,
        (runPass1 u locs batch).errors⟩
      (by
        intro r hmem loc dt w hc
        have := hkey r hmem loc dt w hc
        simpa [runMulti, runPass1] using this)
  simpa [runMulti, runPass1] using h

/-! Lemmas for the Date Normalizer claims: a slash-separated date that
matches `%m/%d/%Y` consists of digits and slashes only, so the integer
attempt and the four dash-separated formats all fail on it. -/

theorem numField_allDigits {l : List Char} {n maxLen lo hi : Nat}
    (h : numField l maxLen lo hi = some n) : allDigits l = true := by
  unfold numField at h
  split at h
  · rename_i hc
    simp only [Bool.and_eq_true, decide_eq_true_eq] at hc
    exact hc.1.1.2
  · cases h

theorem yearField_allDigits {l : List Char} {y : Int}
    (h : yearField l = some y) : allDigits l = true := by
  unfold yearField at h
  split at h
  · rename_i hc
    simp only [Bool.and_eq_true, decide_eq_true_eq] at hc
    exact hc.1.2
  · cases h

theorem fmtMdy_split {l : List Char} {d : DT} (h : fmtMdy l = some d) :
    ∃ ms ds ys, splitOnChar '/' l = [ms, ds, ys] ∧ allDigits ms = true ∧
      allDigits ds = true ∧ allDigits ys = true := by
  unfold fmtMdy at h
  split at h
  · rename_i ms ds ys hsp
    have hsome : ∃ m d2 y, numField ms 2 1 12 = some m ∧
        numField ds 2 1 31 = some d2 ∧ yearField ys = some y := by
      rcases hm : numField ms 2 1 12 with - | m <;> rw [hm] at h
      · simp at h
      · rcases hd2 : numField ds 2 1 31 with - | d2 <;> rw [hd2] at h
        · simp at h
        · rcases hy : yearField ys with - | y <;> rw [hy] at h
          · simp at h
          · exact ⟨m, d2, y, rfl, rfl, rfl⟩
    rcases hsome with ⟨m, d2, y, hm, hd2, hy⟩
    exact ⟨ms, ds, ys, hsp, numField_allDigits hm, numField_allDigits hd2,
      yearField_allDigits hy⟩
  · cases h

theorem fmtMdy_chars {l : List Char} {d : DT} (h : fmtMdy l = some d) :
    ∀ x ∈ l, x.isDigit = true ∨ x = '/' := by
  rcases fmtMdy_split h with ⟨ms, ds, ys, hsp, hm, hd, hy⟩
  intro x hx
  rcases splitOnChar_mem hx with hc | ⟨p, hp, hxp⟩
  · exact Or.inr hc
  · rw [hsp] at hp
    left
    simp only [allDigits, List.all_eq_true] at hm hd hy
    simp only [List.mem_cons, List.not_mem_nil, or_false] at hp
    rcases hp with rfl | rfl | rfl
    · exact hm x hxp
    · exact hd x hxp
    · exact hy x hxp

theorem fmtMdy_slash {l : List Char} {d : DT} (h : fmtMdy l = some d) : '/' ∈ l := by
  rcases fmtMdy_split h with ⟨ms, ds, ys, hsp, -, -, -⟩
  by_contra hnm
  rw [splitOnChar_not_mem hnm] at hsp
  cases hsp

theorem pyIntOfChars_slash {l : List Char} (hs : '/' ∈ l) : pyIntOfChars l = none := by
  have hmem : '/' ∈ trimWs l := mem_trimWs hs (by decide)
  unfold pyIntOfChars
  cases ht : trimWs l with
  | nil => rfl
  | cons c ds =>
    rw [ht] at hmem
    by_cases hc1 : c = '-'
    · have : '/' ∈ ds := by
        rcases List.mem_cons.mp hmem with rfl | h2
        · cases hc1
        · exact h2
      have : allDigits ds = false := by
        simp only [allDigits, List.all_eq_false]
        exact ⟨'/', this, by decide⟩
      simp [hc1, this]
    · by_cases hc2 : c = '+'
      · have : '/' ∈ ds := by
          rcases List.mem_cons.mp hmem with rfl | h2
          · cases hc2
          · exact h2
        have : allDigits ds = false := by
          simp only [allDigits, List.all_eq_false]
          exact ⟨'/', this, by decide⟩
        simp [hc1, hc2, this]
      · have : allDigits (c :: ds) = false := by
          simp only [allDigits, List.all_eq_false]
          exact ⟨'/', hmem, by decide⟩
        simp [hc1, hc2, this]

theorem digit_or_slash_not {x : Char} (h : x.isDigit = true ∨ x = '/') :
    x ≠ '-' ∧ x ≠ ' ' ∧ x ≠ 'T' ∧ x ≠ 'Z' := by
  rcases h with hd | rfl
  · refine ⟨?_, ?_, ?_, ?_⟩ <;> rintro rfl <;> simp [Char.isDigit] at hd
  · exact ⟨by decide, by decide, by decide, by decide⟩

theorem fmtYmd_none_of_no_dash {l : List Char} (h : '-' ∉ l) : fmtYmd l = none := by
  simp [fmtYmd, ymdCore, splitOnChar_not_mem h]

theorem fmtYmdSpaceHms_none_of_no_space {l : List Char} (h : ' ' ∉ l) :
    fmtYmdSpaceHms l = none := by
  simp [fmtYmdSpaceHms, splitOnChar_not_mem h]

theorem fmtYmdTHms_none_of_no_t {l : List Char} (h : 'T' ∉ l) :
    fmtYmdTHms l = none := by
  simp [fmtYmdTHms, splitOnChar_not_mem h]

theorem fmtYmdTHmsZ_none_of_no_z {l : List Char} (h : 'Z' ∉ l) :
    fmtYmdTHmsZ l = none := by
  unfold fmtYmdTHmsZ
  cases hgl : l.getLast? with
  | none => rfl
  | some c =>
    have hcm : c ∈ l := by
      rcases List.mem_getLast?_eq_getLast (show c ∈ l.getLast? from hgl) with ⟨hne, heq⟩
      rw [heq]
      exact List.getLast_mem hne
    have hcz : ¬(c = 'Z') := fun hrfl => h (hrfl ▸ hcm)
    split
    · rename_i heq
      cases heq
      exact absurd rfl hcz
    · rfl

/-- The month-first/day-first tie-break: on a string that parses under
both slash formats, the whole Date Normalizer returns the `%m/%d/%Y`
reading. -/
theorem parseDate_slash_ambiguity {s : String} {d1 d2 : DT}
    (h1 : fmtMdy s.data = some d1) (h2 : fmtDmy s.data = some d2) :
    parseDateVal (vStr s) = some d1 := by
  have hchars := fmtMdy_chars h1
  have hint : pyIntOfChars s.data = none := pyIntOfChars_slash (fmtMdy_slash h1)
  have hnd : '-' ∉ s.data := fun hm => ((digit_or_slash_not (hchars _ hm)).1) rfl
  have hns : ' ' ∉ s.data := fun hm => ((digit_or_slash_not (hchars _ hm)).2.1) rfl
  have hnt : 'T' ∉ s.data := fun hm => ((digit_or_slash_not (hchars _ hm)).2.2.1) rfl
  have hnz : 'Z' ∉ s.data := fun hm => ((digit_or_slash_not (hchars _ hm)).2.2.2) rfl
  simp only [parseDateVal, pyIntVal, hint]
  simp only [tryFormats, fmtYmd_none_of_no_dash hnd, fmtYmdSpaceHms_none_of_no_space hns,
    fmtYmdTHms_none_of_no_t hnt, fmtYmdTHmsZ_none_of_no_z hnz, h1,
    Option.none_orElse, Option.some_orElse]

/-! User-scoping lemmas: every strategy of the resolution ladder filters
on `user_id`. -/

theorem coordStep_user {u : Int} {info : LocInfo} {locs : List Location} {loc : Location}
    (h : coordStep u info locs = some loc) : loc.user_id = u := by
  unfold coordStep at h
  split at h
  · rcases firstSome_some h with ⟨tol, -, hf⟩
    have hp := List.find?_some hf
    simp only [Bool.and_eq_true, beq_iff_eq] at hp
    exact hp.1.1.1.1
  · cases h

theorem nameCityStep_user {u : Int} {info : LocInfo} {locs : List Location}
    {loc : Location} (h : nameCityStep u info locs = some loc) : loc.user_id = u := by
  unfold nameCityStep at h
  split at h
  · split at h
    · rename_i l heq
      cases h
      have hp := List.find?_some heq
      simp only [Bool.and_eq_true, beq_iff_eq] at hp
      exact hp.1.1
    · have hp := List.find?_some h
      simp only [Bool.and_eq_true, beq_iff_eq] at hp
      exact hp.1
  · cases h

theorem nameStep_user {u : Int} {info : LocInfo} {locs : List Location} {loc : Location}
    (h : nameStep u info locs = some loc) : loc.user_id = u := by
  unfold nameStep at h
  split at h
  · split at h
    · rename_i l heq
      cases h
      have hp := List.find?_some heq
      simp only [Bool.and_eq_true, beq_iff_eq] at hp
      exact hp.1
    · rcases firstSome_some h with ⟨part, -, hf⟩
      split at hf
      · have hp := List.find?_some hf
        simp only [Bool.and_eq_true, beq_iff_eq] at hp
        exact hp.1
      · cases hf
  · cases h

theorem citySearch_user {u : Int} {c : String} {locs : List Location} {loc : Location}
    (h : citySearch u c locs = some loc) : loc.user_id = u := by
  unfold citySearch at h
  split at h
  · rename_i l heq
    cases h
    have hp := List.find?_some heq
    simp only [Bool.and_eq_true, beq_iff_eq] at hp
    exact hp.1
  · rcases firstSome_some h with ⟨part, -, hf⟩
    split at hf
    · have hp := List.find?_some hf
      simp only [Bool.and_eq_true, beq_iff_eq] at hp
      exact hp.1
    · cases hf

theorem healdsburgAddressFind_user {u : Int} {locs : List Location} {loc : Location}
    (h : healdsburgAddressFind u locs = some loc) : loc.user_id = u := by
  have hp := List.find?_some h
  simp only [Bool.and_eq_true, beq_iff_eq] at hp
  exact hp.1

theorem cityStep_user {u : Int} {info : LocInfo} {locs : List Location} {loc : Location}
    (h : cityStep u info locs = some loc) : loc.user_id = u := by
  unfold cityStep at h
  split at h
  · split at h
    · rename_i l heq
      cases h
      exact citySearch_user heq
    · split at h
      · exact healdsburgAddressFind_user h
      · cases h
  · cases h

/-- The Healdsburg special case decomposed: strategy 5 is the
address-free city search, plus the address fallback exactly when the
descriptor city is the literal string `"Healdsburg"`. -/
theorem cityStep_decomp (u : Int) (info : LocInfo) (locs : List Location) :
    cityStep u info locs =
      (match cityStepNoAddress u info locs with
       | some l => some l
       | none =>
         if info.city = some "Healdsburg" then healdsburgAddressFind u locs
         else none) := by
  unfold cityStep cityStepNoAddress
  by_cases hT : strTruthy info.city = true
  · simp only [hT, if_true]
  · simp only [hT, Bool.false_eq_true, if_false]
    have hne : ¬(info.city = some "Healdsburg") := by
      intro hc
      rw [hc] at hT
      exact hT (by decide)
    rw [if_neg hne]

/-! Lemmas for the Location Descriptor Extractor claims. -/

theorem str_append_ne_left {s t : String} (h : s ≠ "") : s ++ t ≠ "" := by
  intro heq
  apply h
  have h2 := congrArg String.data heq
  simp at h2
  rcases h2 with ⟨h3, -⟩
  exact String.ext h3

theorem pyGetT_truthy {fs : List (String × Val)} {k : String} {v : Val}
    (h : pyGetT fs k = some v) : truthy v = true := by
  unfold pyGetT at h
  split at h
  · split at h
    · cases h; assumption
    · cases h
  · cases h

theorem extractLocationInfo_none_iff (fs : List (String × Val)) :
    extractLocationInfo fs = none ↔
      firstSome (pyGetT fs) nameAliases = none ∧ coordPairTruthy fs = false := by
  cases hn0 : firstSome (pyGetT fs) nameAliases with
  | some v =>
    have hv : truthy v = true := by
      rcases firstSome_some hn0 with ⟨k, -, hk⟩
      exact pyGetT_truthy hk
    have hne := pyStr_truthy_ne_empty v hv
    have hst : strTruthy (some (pyStr v)) = true := by simp [strTruthy, hne]
    simp only [extractLocationInfo, hn0, Option.map_some']
    simp [hst]
  | none =>
    have hall := firstSome_eq_none.mp hn0
    have hcn : pyGetT fs "city_name" = none := hall _ (by simp [nameAliases])
    have hc : pyGetT fs "city" = none := hall _ (by simp [nameAliases])
    have hcity : firstSome (pyGetT fs) ["city", "city_name"] = none := by
      simp [firstSome, hc, hcn]
    simp only [extractLocationInfo, hn0, hcity, Option.map_none']
    cases hla : firstFloat fs ["latitude", "lat"] with
    | none =>
      simp [coordPairTruthy, hla, hcn, strTruthy, numTruthy]
    | some la =>
      cases hlo : firstFloat fs ["longitude", "lon"] with
      | none =>
        simp [coordPairTruthy, hla, hlo, hcn, strTruthy, numTruthy]
      | some lo =>
        by_cases hz : la ≠ 0 ∧ lo ≠ 0
        · have hsynth : ("Location (" ++ formatFixed 4 la ++ ", " ++
              formatFixed 4 lo ++ ")") ≠ "" :=
            str_append_ne_left (str_append_ne_left (str_append_ne_left
              (str_append_ne_left (by decide))))
          simp [coordPairTruthy, hla, hlo, hcn, strTruthy, numTruthy, hz.1, hz.2, hsynth]
        · have hz2 : la = 0 ∨ lo = 0 := by tauto
          rcases hz2 with rfl | rfl <;>
            simp [coordPairTruthy, hla, hlo, hcn, strTruthy, numTruthy]

theorem extractLocationInfo_synth {fs : List (String × Val)} {la lo : ℚ}
    (hab : ∀ k ∈ nameAliases, List.lookup k fs = none)
    (hla : firstFloat fs ["latitude", "lat"] = some la) (hla0 : la ≠ 0)
    (hlo : firstFloat fs ["longitude", "lon"] = some lo) (hlo0 : lo ≠ 0) :
    extractLocationInfo fs =
      some ⟨some ("Location (" ++ formatFixed 4 la ++ ", " ++ formatFixed 4 lo ++ ")"),
        none, none, some la, some lo⟩ := by
  have hpg : ∀ k ∈ nameAliases, pyGetT fs k = none := by
    intro k hk
    simp [pyGetT, hab k hk]
  have hn0 : firstSome (pyGetT fs) nameAliases = none := firstSome_eq_none.mpr hpg
  have hcn : pyGetT fs "city_name" = none := hpg _ (by simp [nameAliases])
  have hc : pyGetT fs "city" = none := hpg _ (by simp [nameAliases])
  have haddr : pyGetT fs "address" = none := hpg _ (by simp [nameAliases])
  have hcity : firstSome (pyGetT fs) ["city", "city_name"] = none := by
    simp [firstSome, hc, hcn]
  have hsynth : ("Location (" ++ formatFixed 4 la ++ ", " ++ formatFixed 4 lo ++ ")")
      ≠ "" :=
    str_append_ne_left (str_append_ne_left (str_append_ne_left
      (str_append_ne_left (by decide))))
  simp [extractLocationInfo, hn0, hcity, hcn, haddr, hla, hlo, strTruthy, numTruthy,
    hla0, hlo0, hsynth]

/-! Lemmas for the Record Builder claims. -/

theorem buildSingle_fields {lid : Int} {dt : DT} {fs : List (String × Val)}
    {w : WeatherRecord} (h : buildSingleRecord lid dt fs = some w) :
    (List.lookup "humidity" fs = none → w.humidity = none) ∧
    (List.lookup "pressure" fs = none → w.pressure = none) ∧
    (List.lookup "wind_speed" fs = none → w.wind_speed = none) ∧
    (List.lookup "wind_direction" fs = none → w.wind_direction = none) ∧
    (List.lookup "description" fs = none → w.description = vStr "Historical data") ∧
    (List.lookup "icon" fs = none → w.icon = vStr "01d") := by
  unfold buildSingleRecord at h
  split at h
  · cases h
    rename_i x1 x2 x3 x4 x5 t hv pv wsv wdv heqt heqh heqp heqws heqwd
    refine ⟨?_, ?_, ?_, ?_, ?_, ?_⟩
    · intro habs
      simp [optNumSingle, habs] at heqh
      simp [← heqh]
    · intro habs
      simp [optNumSingle, habs] at heqp
      simp [← heqp]
    · intro habs
      simp [optNumSingle, habs] at heqws
      simp [← heqws]
    · intro habs
      simp [optNumSingle, habs] at heqwd
      simp [← heqwd]
    · intro habs
      simp [habs]
    · intro habs
      simp [habs]
  · cases h

theorem buildSingle_nonnumeric {lid : Int} {dt : DT} {fs : List (String × Val)} :
    (∀ v, List.lookup "humidity" fs = some v → truthy v = true → pyFloat v = none →
      buildSingleRecord lid dt fs = none) ∧
    (∀ v, List.lookup "pressure" fs = some v → truthy v = true → pyFloat v = none →
      buildSingleRecord lid dt fs = none) ∧
    (∀ v, List.lookup "wind_speed" fs = some v → truthy v = true → pyFloat v = none →
      buildSingleRecord lid dt fs = none) ∧
    (∀ v, List.lookup "wind_direction" fs = some v → truthy v = true →
      pyFloat v = none → buildSingleRecord lid dt fs = none) := by
  refine ⟨?_, ?_, ?_, ?_⟩
  · intro v hl ht hf
    cases hb : buildSingleRecord lid dt fs with
    | none => rfl
    | some w =>
      exfalso
      unfold buildSingleRecord at hb
      split at hb
      · rename_i x1 x2 x3 x4 x5 t hv pv wsv wdv heqt heqh heqp heqws heqwd
        simp [optNumSingle, hl, ht, hf] at heqh
      · cases hb
  · intro v hl ht hf
    cases hb : buildSingleRecord lid dt fs with
    | none => rfl
    | some w =>
      exfalso
      unfold buildSingleRecord at hb
      split at hb
      · rename_i x1 x2 x3 x4 x5 t hv pv wsv wdv heqt heqh heqp heqws heqwd
        simp [optNumSingle, hl, ht, hf] at heqp
      · cases hb
  · intro v hl ht hf
    cases hb : buildSingleRecord lid dt fs with
    | none => rfl
    | some w =>
      exfalso
      unfold buildSingleRecord at hb
      split at hb
      · rename_i x1 x2 x3 x4 x5 t hv pv wsv wdv heqt heqh heqp heqws heqwd
        simp [optNumSingle, hl, ht, hf] at heqws
      · cases hb
  · intro v hl ht hf
    cases hb : buildSingleRecord lid dt fs with
    | none => rfl
    | some w =>
      exfalso
      unfold buildSingleRecord at hb
      split at hb
      · rename_i x1 x2 x3 x4 x5 t hv pv wsv wdv heqt heqh heqp heqws heqwd
        simp [optNumSingle, hl, ht, hf] at heqwd
      · cases hb

theorem buildSingle_falsy {lid : Int} {dt : DT} {fs : List (String × Val)}
    {w : WeatherRecord} (h : buildSingleRecord lid dt fs = some w) :
    (∀ v, List.lookup "humidity" fs = some v → truthy v = false →
      w.humidity = none) ∧
    (∀ v, List.lookup "pressure" fs = some v → truthy v = false →
      w.pressure = none) ∧
    (∀ v, List.lookup "wind_speed" fs = some v → truthy v = false →
      w.wind_speed = none) ∧
    (∀ v, List.lookup "wind_direction" fs = some v → truthy v = false →
      w.wind_direction = none) := by
  unfold buildSingleRecord at h
  split at h
  · cases h
    rename_i x1 x2 x3 x4 x5 t hv pv wsv wdv heqt heqh heqp heqws heqwd
    refine ⟨?_, ?_, ?_, ?_⟩
    · intro v hl ht
      simp [optNumSingle, hl, ht] at heqh
      simp [← heqh]
    · intro v hl ht
      simp [optNumSingle, hl, ht] at heqp
      simp [← heqp]
    · intro v hl ht
      simp [optNumSingle, hl, ht] at heqws
      simp [← heqws]
    · intro v hl ht
      simp [optNumSingle, hl, ht] at heqwd
      simp [← heqwd]
  · cases h

theorem buildMulti_fields {lid : Int} {dt : DT} {tv : Val} {fs : List (String × Val)}
    {w : WeatherRecord} (h : buildMultiRecord lid dt tv fs = some w) :
    (List.lookup "humidity" fs = none → List.lookup "main" fs = none →
      w.humidity = none) ∧
    (List.lookup "pressure" fs = none → List.lookup "main" fs = none →
      w.pressure = none) ∧
    (List.lookup "wind_speed" fs = none → List.lookup "wind" fs = none →
      w.wind_speed = none) ∧
    (List.lookup "wind_direction" fs = none → List.lookup "wind" fs = none →
      w.wind_direction = none) ∧
    (List.lookup "description" fs = none → List.lookup "weather" fs = none →
      w.description = vStr "Historical data") ∧
    (List.lookup "icon" fs = none → List.lookup "weather" fs = none →
      w.icon = vStr "01d") := by
  unfold buildMultiRecord at h
  repeat' split at h
  all_goals try cases h
  rename_i x1 tc htc x2 hv heqh x3 pv heqp x4 wsv heqws x5 wdv heqwd x6 ddflt heqd
    x7 idflt heqi
  refine ⟨?_, ?_, ?_, ?_, ?_, ?_⟩
  · intro habs1 habs2
    simp [optNumMulti, objGet2, habs1, habs2, truthyOpt, truthy] at heqh
    simp [← heqh]
  · intro habs1 habs2
    simp [optNumMulti, objGet2, habs1, habs2, truthyOpt, truthy] at heqp
    simp [← heqp]
  · intro habs1 habs2
    simp [optNumMulti, objGet2, habs1, habs2, truthyOpt, truthy] at heqws
    simp [← heqws]
  · intro habs1 habs2
    simp [optNumMulti, objGet2, habs1, habs2, truthyOpt, truthy] at heqwd
    simp [← heqwd]
  · intro habs1 habs2
    simp [weatherSub, habs2, truthyOpt] at heqd
    simp [habs1, ← heqd]
  · intro habs1 habs2
    simp [weatherSub, habs2, truthyOpt] at heqi
    simp [habs1, ← heqi]

theorem optNumMulti_nonnumeric {fs : List (String × Val)} {k : String}
    (outer inner : String) {v : Val} (hl : List.lookup k fs = some v)
    (ht : truthy v = true) (hf : pyFloat v = none) :
    optNumMulti fs k outer inner = none := by
  unfold optNumMulti
  cases hg : objGet2 fs outer inner (vNum 0) with
  | none => simp [hl, truthyOpt, ht, hg]
  | some fb => simp [hl, truthyOpt, ht, hg, hf]

theorem buildMulti_nonnumeric {lid : Int} {dt : DT} {tv : Val}
    {fs : List (String × Val)} :
    (∀ v, List.lookup "humidity" fs = some v → truthy v = true → pyFloat v = none →
      buildMultiRecord lid dt tv fs = none) ∧
    (∀ v, List.lookup "pressure" fs = some v → truthy v = true → pyFloat v = none →
      buildMultiRecord lid dt tv fs = none) ∧
    (∀ v, List.lookup "wind_speed" fs = some v → truthy v = true → pyFloat v = none →
      buildMultiRecord lid dt tv fs = none) ∧
    (∀ v, List.lookup "wind_direction" fs = some v → truthy v = true →
      pyFloat v = none → buildMultiRecord lid dt tv fs = none) := by
  refine ⟨?_, ?_, ?_, ?_⟩
  · intro v hl ht hf
    have hn := optNumMulti_nonnumeric "main" "humidity" hl ht hf
    unfold buildMultiRecord
    repeat' split
    all_goals simp_all
  · intro v hl ht hf
    have hn := optNumMulti_nonnumeric "main" "pressure" hl ht hf
    unfold buildMultiRecord
    repeat' split
    all_goals simp_all
  · intro v hl ht hf
    have hn := optNumMulti_nonnumeric "wind" "speed" hl ht hf
    unfold buildMultiRecord
    repeat' split
    all_goals simp_all
  · intro v hl ht hf
    have hn := optNumMulti_nonnumeric "wind" "deg" hl ht hf
    unfold buildMultiRecord
    repeat' split
    all_goals simp_all

theorem buildMulti_falsy {lid : Int} {dt : DT} {tv : Val} {fs : List (String × Val)}
    {w : WeatherRecord} (h : buildMultiRecord lid dt tv fs = some w) :
    (∀ v, List.lookup "humidity" fs = some v → truthy v = false →
      List.lookup "main" fs = none → w.humidity = none) ∧
    (∀ v, List.lookup "pressure" fs = some v → truthy v = false →
      List.lookup "main" fs = none → w.pressure = none) ∧
    (∀ v, List.lookup "wind_speed" fs = some v → truthy v = false →
      List.lookup "wind" fs = none → w.wind_speed = none) ∧
    (∀ v, List.lookup "wind_direction" fs = some v → truthy v = false →
      List.lookup "wind" fs = none → w.wind_direction = none) := by
  unfold buildMultiRecord at h
  repeat' split at h
  all_goals try cases h
  rename_i x1 tc htc x2 hv heqh x3 pv heqp x4 wsv heqws x5 wdv heqwd x6 ddflt heqd
    x7 idflt heqi
  refine ⟨?_, ?_, ?_, ?_⟩
  · intro v hfl hft habs
    simp [optNumMulti, objGet2, hfl, hft, habs, truthyOpt,
      show truthy vNull = false from rfl] at heqh
    simp [← heqh]
  · intro v hfl hft habs
    simp [optNumMulti, objGet2, hfl, hft, habs, truthyOpt,
      show truthy vNull = false from rfl] at heqp
    simp [← heqp]
  · intro v hfl hft habs
    simp [optNumMulti, objGet2, hfl, hft, habs, truthyOpt,
      show truthy vNull = false from rfl] at heqws
    simp [← heqws]
  · intro v hfl hft habs
    simp [optNumMulti, objGet2, hfl, hft, habs, truthyOpt,
      show truthy vNull = false from rfl] at heqwd
    simp [← heqwd]

theorem pass1_keys (u : Int) (locs : List Location) (l : List Val) :
    ∀ st : P1State,
      ((l.foldl (pass1Step u locs) st).mapping).map Prod.fst
        = (batchKeys l).foldl insertNew (st.mapping.map Prod.fst) := by
  induction l with
  | nil => intro st; simp [batchKeys]
  | cons r rs ih =>
    intro st
    rw [List.foldl_cons]
    cases hi : recInfo r with
    | none =>
      have hbk : batchKeys (r :: rs) = batchKeys rs := by
        simp [batchKeys, List.filterMap_cons, hi]
      rw [hbk, ih (pass1Step u locs st r)]
      have hmap : (pass1Step u locs st r).mapping = st.mapping := by
        simp [pass1Step, hi]
      rw [hmap]
    | some info =>
      have hbk : batchKeys (r :: rs) = createLocationKey info :: batchKeys rs := by
        simp [batchKeys, List.filterMap_cons, hi]
      rw [hbk, List.foldl_cons, ih (pass1Step u locs st r)]
      have hmap : (pass1Step u locs st r).mapping.map Prod.fst
          = insertNew (st.mapping.map Prod.fst) (createLocationKey info) := by
        cases hl : List.lookup (createLocationKey info) st.mapping with
        | some v =>
          have hmem : createLocationKey info ∈ st.mapping.map Prod.fst := by
            by_contra hc
            have h0 := lookup_eq_none_iff.mpr hc
            rw [h0] at hl
            cases hl
          by_cases hs : v.isSome <;> simp [pass1Step, hi, hl, insertNew, hmem, hs]
        | none =>
          have hmem : createLocationKey info ∉ st.mapping.map Prod.fst :=
            lookup_eq_none_iff.mp hl
          by_cases hs : (findMatchingLocation u info locs).isSome <;>
            simp [pass1Step, hi, hl, insertNew, hmem, hs]
      rw [hmap]

/-! The claims. -/

/-- C1 (counterexample): the empty-object one-record batch is skipped by
both passes of the multi-location mode, so `stored + skipped = 2` while
`total_records = 1` — the claimed equality fails in multi-location
mode. -/
theorem C1_counterexample :
    ¬((runMulti 1 [] [] [vObj []]).stored + (runMulti 1 [] [] [vObj []]).skipped
      = (runMulti 1 [] [] [vObj []]).total) := by
  decide

/-- C1 (amended): in single-location mode every record reaches exactly
one terminal decision, so `stored + skipped = total`; in multi-location
mode a record can be counted as skipped by both passes, so only
`stored + skipped ≥ total` holds. -/
theorem C1_amended :
    (∀ (lid : Int) (store0 : List WeatherRecord) (batch : List Val),
      (runSingle lid store0 batch).stored + (runSingle lid store0 batch).skipped
        = batch.length) ∧
    (∀ (u : Int) (locs : List Location) (store0 : List WeatherRecord)
        (batch : List Val),
      batch.length ≤ (runMulti u locs store0 batch).stored
        + (runMulti u locs store0 batch).skipped) :=
  ⟨runSingle_conservation, runMulti_ge⟩

/-- C2 (counterexample): ingesting `{"date": "2024-01-15",
"temperature": 59.0}` in single-location mode stores the temperature
value 59 unchanged — not ≈15 °C as claimed; `upload_historical_data`
performs no Fahrenheit→Celsius conversion. -/
theorem C2_counterexample :
    ((runSingle 7 [] [cRecA]).store.map (fun w => w.temperature) = [some 59]) ∧
    ¬((runSingle 7 [] [cRecA]).store.map (fun w => w.temperature) = [some 15]) :=
  ⟨by decide, by decide⟩

/-- C2 (amended): the Scenario A batch against an empty store yields
`stored = 1`, `skipped = 0`, and the stored sample has temperature 59.0
(stored unconverted) and `recorded_at` 2024-01-15T00:00:00. -/
theorem C2_amended :
    (runSingle 7 [] [cRecA]).stored = 1 ∧ (runSingle 7 [] [cRecA]).skipped = 0 ∧
    (runSingle 7 [] [cRecA]).store.map (fun w => (w.temperature, w.recorded_at))
      = [(some 59, cDT0)] :=
  ⟨by decide, by decide, by decide⟩

/-- C3 (code evaluated at the failing input): a multi-location record
with temperature exactly 0 °F passes validation (the `is None` check
admits 0) and is stored, but the truthiness-guarded conversion
`(float(temperature) - 32) * 5/9 if temperature else None` stores SQL
`NULL` instead of the documented conversion `(0 - 32) * 5/9 ≈ -17.8` —
into a `nullable=False` column. -/
theorem C3_zero_temperature_eval :
    (runMulti 1 [cLocParis] [] [cRecZero]).stored = 1 ∧
    (runMulti 1 [cLocParis] [] [cRecZero]).store.map (fun w => w.temperature)
      = [none] ∧
    ¬((runMulti 1 [cLocParis] [] [cRecZero]).store.map (fun w => w.temperature)
      = [some ((0 - 32) * 5 / 9)]) :=
  ⟨by with_unfolding_all decide, by with_unfolding_all decide,
   by with_unfolding_all decide⟩

/-- C4: ingestion is idempotent in both modes — re-running the same
batch against the store produced by the first run stores nothing (every
previously stored record is caught by the duplicate guard's
`(location_id, recorded_at)` check, all other records fail for the same
store-independent reasons as before). -/
theorem C4_idempotence :
    (∀ (lid : Int) (store0 : List WeatherRecord) (batch : List Val),
      (runSingle lid (runSingle lid store0 batch).store batch).stored = 0) ∧
    (∀ (u : Int) (locs : List Location) (store0 : List WeatherRecord)
        (batch : List Val),
      (runMulti u locs (runMulti u locs store0 batch).store batch).stored = 0) :=
  ⟨fun lid s b => (runSingle_idem lid s b).1, fun u l s b => (runMulti_idem u l s b).1⟩

/-- C5 (counterexample): a single-location record with no `description`
and a present empty-string `humidity` is stored (not skipped), its
humidity is stored as absent, and its description is the default
`'Historical data'`, not absent — refuting both the "absent stays
absent" claim for `description`/`icon` and the "present non-numeric
fails the record" claim for falsy values. -/
theorem C5_counterexample :
    (runSingle 7 [] [cRecB]).stored = 1 ∧
    (runSingle 7 [] [cRecB]).store.map (fun w => isNullVal w.description) = [false] ∧
    (runSingle 7 [] [cRecB]).store.map (fun w => pyStr w.description)
      = ["Historical data"] ∧
    (runSingle 7 [] [cRecB]).store.map (fun w => w.humidity) = [none] :=
  ⟨by decide, by decide, by decide, by decide⟩

/-- C5 (amended): for a stored record, in either mode, each absent
optional numeric field (`humidity`, `pressure`, `wind_speed`,
`wind_direction`) is stored as absent — in multi-location mode when the
nested `main`/`wind` alias object is also absent — while absent
`description`/`icon` get the defaults `'Historical data'`/`'01d'`; a
present **falsy** value for any optional numeric field is stored as
absent (multi-location mode again with the nested alias object absent);
and a present **truthy** non-numeric value for any optional numeric
field fails the record in either mode. -/
theorem C5_amended :
    (∀ (lid : Int) (dt : DT) (fs : List (String × Val)) (w : WeatherRecord),
      buildSingleRecord lid dt fs = some w →
      (List.lookup "humidity" fs = none → w.humidity = none) ∧
      (List.lookup "pressure" fs = none → w.pressure = none) ∧
      (List.lookup "wind_speed" fs = none → w.wind_speed = none) ∧
      (List.lookup "wind_direction" fs = none → w.wind_direction = none) ∧
      (List.lookup "description" fs = none → w.description = vStr "Historical data") ∧
      (List.lookup "icon" fs = none → w.icon = vStr "01d")) ∧
    (∀ (lid : Int) (dt : DT) (fs : List (String × Val)) (w : WeatherRecord),
      buildSingleRecord lid dt fs = some w →
      (∀ v, List.lookup "humidity" fs = some v → truthy v = false →
        w.humidity = none) ∧
      (∀ v, List.lookup "pressure" fs = some v → truthy v = false →
        w.pressure = none) ∧
      (∀ v, List.lookup "wind_speed" fs = some v → truthy v = false →
        w.wind_speed = none) ∧
      (∀ v, List.lookup "wind_direction" fs = some v → truthy v = false →
        w.wind_direction = none)) ∧
    (∀ (lid : Int) (dt : DT) (fs : List (String × Val)),
      (∀ v, List.lookup "humidity" fs = some v → truthy v = true →
        pyFloat v = none → buildSingleRecord lid dt fs = none) ∧
      (∀ v, List.lookup "pressure" fs = some v → truthy v = true →
        pyFloat v = none → buildSingleRecord lid dt fs = none) ∧
      (∀ v, List.lookup "wind_speed" fs = some v → truthy v = true →
        pyFloat v = none → buildSingleRecord lid dt fs = none) ∧
      (∀ v, List.lookup "wind_direction" fs = some v → truthy v = true →
        pyFloat v = none → buildSingleRecord lid dt fs = none)) ∧
    (∀ (lid : Int) (dt : DT) (tv : Val) (fs : List (String × Val)) (w : WeatherRecord),
      buildMultiRecord lid dt tv fs = some w →
      (List.lookup "humidity" fs = none → List.lookup "main" fs = none →
        w.humidity = none) ∧
      (List.lookup "pressure" fs = none → List.lookup "main" fs = none →
        w.pressure = none) ∧
      (List.lookup "wind_speed" fs = none → List.lookup "wind" fs = none →
        w.wind_speed = none) ∧
      (List.lookup "wind_direction" fs = none → List.lookup "wind" fs = none →
        w.wind_direction = none) ∧
      (List.lookup "description" fs = none → List.lookup "weather" fs = none →
        w.description = vStr "Historical data") ∧
      (List.lookup "icon" fs = none → List.lookup "weather" fs = none →
        w.icon = vStr "01d")) ∧
    (∀ (lid : Int) (dt : DT) (tv : Val) (fs : List (String × Val)) (w : WeatherRecord),
      buildMultiRecord lid dt tv fs = some w →
      (∀ v, List.lookup "humidity" fs = some v → truthy v = false →
        List.lookup "main" fs = none → w.humidity = none) ∧
      (∀ v, List.lookup "pressure" fs = some v → truthy v = false →
        List.lookup "main" fs = none → w.pressure = none) ∧
      (∀ v, List.lookup "wind_speed" fs = some v → truthy v = false →
        List.lookup "wind" fs = none → w.wind_speed = none) ∧
      (∀ v, List.lookup "wind_direction" fs = some v → truthy v = false →
        List.lookup "wind" fs = none → w.wind_direction = none)) ∧
    (∀ (lid : Int) (dt : DT) (tv : Val) (fs : List (String × Val)),
      (∀ v, List.lookup "humidity" fs = some v → truthy v = true →
        pyFloat v = none → buildMultiRecord lid dt tv fs = none) ∧
      (∀ v, List.lookup "pressure" fs = some v → truthy v = true →
        pyFloat v = none → buildMultiRecord lid dt tv fs = none) ∧
      (∀ v, List.lookup "wind_speed" fs = some v → truthy v = true →
        pyFloat v = none → buildMultiRecord lid dt tv fs = none) ∧
      (∀ v, List.lookup "wind_direction" fs = some v → truthy v = true →
        pyFloat v = none → buildMultiRecord lid dt tv fs = none)) :=
  ⟨fun _ _ _ _ h => buildSingle_fields h,
   fun _ _ _ _ h => buildSingle_falsy h,
   fun _ _ _ => buildSingle_nonnumeric,
   fun _ _ _ _ _ h => buildMulti_fields h,
   fun _ _ _ _ _ h => buildMulti_falsy h,
   fun _ _ _ _ => buildMulti_nonnumeric⟩

/-- C5 (witness): the amended claim applied at concrete inputs — the
Scenario A record (absent fields), a record with the falsy
`humidity = ""`, a record with the truthy non-numeric
`humidity = "wet"`, a bare multi-location build, a multi-location
record with the falsy `humidity = 0`, and a multi-location record with
`humidity = "wet"`. -/
theorem C5_witness :
    cWA.humidity = none ∧ cWA.description = vStr "Historical data" ∧
    cWB.humidity = none ∧
    buildSingleRecord 7 cDT0 cFsBad = none ∧
    cWM.wind_speed = none ∧
    cWM.humidity = none ∧
    buildMultiRecord 3 cDT0 (vNum 50) cFsMBad = none := by
  have h1 := C5_amended.1 7 cDT0 cFsA cWA (by with_unfolding_all rfl)
  have h2 := C5_amended.2.1 7 cDT1 cFsB cWB (by with_unfolding_all rfl)
  have h3 := (C5_amended.2.2.1 7 cDT0 cFsBad).1 (vStr "wet") (by rfl)
    (by decide) (by decide)
  have h4 := C5_amended.2.2.2.1 3 cDT0 (vNum 50) [] cWM (by with_unfolding_all rfl)
  have h5 := C5_amended.2.2.2.2.1 3 cDT0 (vNum 50) cFsM0 cWM
    (by with_unfolding_all rfl)
  have h6 := (C5_amended.2.2.2.2.2 3 cDT0 (vNum 50) cFsMBad).1 (vStr "wet")
    (by rfl) (by decide) (by decide)
  exact ⟨h1.1 rfl, h1.2.2.2.2.1 rfl,
         h2.1 (vStr "") rfl (by decide),
         h3,
         h4.2.2.1 rfl rfl,
         h5.1 (vNum 0) rfl (by with_unfolding_all decide) rfl,
         h6⟩

/-- C6 (counterexample): a record whose latitude and longitude both
parse as floats (`"0.0"` parses to 0, `50` to 50) and that has no name
alias nevertheless fails extraction, because the final check uses
truthiness and a parsed `0.0` coordinate is falsy. -/
theorem C6_counterexample :
    pyFloat (vStr "0.0") = some 0 ∧ pyFloat (vNum 50) = some 50 ∧
    extractLocationInfo [("latitude", vStr "0.0"), ("longitude", vNum 50)] = none :=
  ⟨by with_unfolding_all decide, by with_unfolding_all decide,
   by with_unfolding_all decide⟩

/-- C6 (amended): extraction fails iff no name alias yielded a truthy
value and the coordinate pair is not both-parsed-and-nonzero; for a
record with no name/city/address alias whose coordinates parse to
nonzero floats, extraction succeeds and synthesizes the name
`"Location ({lat:.4f}, {lon:.4f})"`. -/
theorem C6_amended :
    (∀ fs : List (String × Val),
      extractLocationInfo fs = none ↔
        firstSome (pyGetT fs) nameAliases = none ∧ coordPairTruthy fs = false) ∧
    (∀ (fs : List (String × Val)) (la lo : ℚ),
      (∀ k ∈ nameAliases, List.lookup k fs = none) →
      firstFloat fs ["latitude", "lat"] = some la → la ≠ 0 →
      firstFloat fs ["longitude", "lon"] = some lo → lo ≠ 0 →
      extractLocationInfo fs =
        some ⟨some ("Location (" ++ formatFixed 4 la ++ ", " ++ formatFixed 4 lo
          ++ ")"), none, none, some la, some lo⟩) :=
  ⟨extractLocationInfo_none_iff,
   fun _ _ _ hab hla hla0 hlo hlo0 => extractLocationInfo_synth hab hla hla0 hlo hlo0⟩

/-- C6 (witness): the amended claim applied to a coordinates-only
record; the synthesized name formats both coordinates to four decimal
places. -/
theorem C6_witness :
    extractLocationInfo cFsCoord =
      some ⟨some "Location (37.7272, -122.4973)", none, none,
        some (Rat.divInt 377272 10000), some (Rat.divInt (-1224973) 10000)⟩ := by
  have h := C6_amended.2 cFsCoord (Rat.divInt 377272 10000) (Rat.divInt (-1224973) 10000)
    (by
      intro k hk
      simp only [nameAliases, List.mem_cons, List.not_mem_nil, or_false] at hk
      rcases hk with rfl | rfl | rfl | rfl | rfl | rfl <;> rfl)
    (by with_unfolding_all rfl) (by with_unfolding_all decide)
    (by with_unfolding_all rfl) (by with_unfolding_all decide)
  rw [h]
  with_unfolding_all rfl

/-- C7 (counterexample): a batch whose one descriptor fails to resolve
still counts that cache entry — `locations_processed = 1` while the
number of cache entries that resolved to a stored Location is 0. -/
theorem C7_counterexample :
    ¬((runMulti 1 [] [] cBatchP).locations_processed = resolvedEntries 1 [] cBatchP) := by
  with_unfolding_all decide

/-- C7 (amended): `locations_processed` equals the number of distinct
descriptor cache keys for which resolution was attempted — including
keys whose resolution failed (`len(location_mapping)` counts `None`
entries too). -/
theorem C7_amended :
    ∀ (u : Int) (locs : List Location) (store0 : List WeatherRecord)
      (batch : List Val),
      (runMulti u locs store0 batch).locations_processed
        = (dedupFirst (batchKeys batch)).length := by
  intro u locs store0 batch
  have h2 : ((runPass1 u locs batch).mapping).map Prod.fst
      = dedupFirst (batchKeys batch) := by
    simpa [runPass1, dedupFirst] using pass1_keys u locs batch ⟨[], 0, 0⟩
  have h3 := congrArg List.length h2
  rw [List.length_map] at h3
  simpa [runMulti] using h3

/-- C8: the Date Normalizer first attempts an integer parse (success is
Unix seconds since the epoch); a string valid under both slash formats
gets the month-first `%m/%d/%Y` reading because that format is tried
earlier; and when the integer attempt and all six formats fail, the
record's date is invalid (`None`). -/
theorem C8_date_normalizer :
    (∀ (s : String) (n : Int), pyIntOfChars s.data = some n →
      parseDateVal (vStr s) = some (epochToDT n)) ∧
    (∀ (s : String) (d1 d2 : DT), fmtMdy s.data = some d1 → fmtDmy s.data = some d2 →
      parseDateVal (vStr s) = some d1) ∧
    (∀ s : String, pyIntOfChars s.data = none → tryFormats s.data = none →
      parseDateVal (vStr s) = none) := by
  refine ⟨?_, ?_, ?_⟩
  · intro s n h
    simp [parseDateVal, pyIntVal, h]
  · intro s d1 d2 h1 h2
    exact parseDate_slash_ambiguity h1 h2
  · intro s h1 h2
    simp [parseDateVal, pyIntVal, h1, h2]

/-- C8 (witness): `"03/04/2024"` parses under both slash formats and the
Date Normalizer returns March 4 (month-first); `"1700000000"` is taken
as Unix seconds. -/
theorem C8_witness :
    parseDateVal (vStr "03/04/2024") = some ⟨2024, 3, 4, 0, 0, 0⟩ ∧
    parseDateVal (vStr "1700000000") = some ⟨2023, 11, 14, 22, 13, 20⟩ := by
  constructor
  · exact C8_date_normalizer.2.1 "03/04/2024" ⟨2024, 3, 4, 0, 0, 0⟩
      ⟨2024, 4, 3, 0, 0, 0⟩ (by decide) (by decide)
  · have h := C8_date_normalizer.1 "1700000000" 1700000000 (by decide)
    rw [h]
    decide

/-- C9: every Location returned by the resolution ladder belongs to the
given user — each strategy's query filters on `user_id`. -/
theorem C9_user_scoped :
    ∀ (u : Int) (info : LocInfo) (locs : List Location) (loc : Location),
      findMatchingLocation u info locs = some loc → loc.user_id = u := by
  intro u info locs loc h
  unfold findMatchingLocation at h
  split at h
  · rename_i l heq
    cases h
    exact coordStep_user heq
  · split at h
    · rename_i l heq
      cases h
      exact nameCityStep_user heq
    · split at h
      · rename_i l heq
        cases h
        exact nameStep_user heq
      · exact cityStep_user h

/-- C9 (witness): a name-only descriptor resolves against user 1's
stored Location, and the theorem yields its user id. -/
theorem C9_witness :
    findMatchingLocation 1 cInfoParis [cLocParis] = some cLocParis ∧
      cLocParis.user_id = 1 :=
  ⟨by with_unfolding_all rfl,
   C9_user_scoped 1 cInfoParis [cLocParis] cLocParis (by with_unfolding_all rfl)⟩

/-- C10: the resolver equals the address-free ladder except that, for
the one literal descriptor city `"Healdsburg"`, a failed city search
falls back to a case-insensitive address containment match; for any
other city value the result is that of the ladder that never consults
the address column. -/
theorem C10_healdsburg_special_case :
    ∀ (u : Int) (info : LocInfo) (locs : List Location),
      findMatchingLocation u info locs =
        (match findMatchingLocationNoAddress u info locs with
         | some l => some l
         | none =>
           if info.city = some "Healdsburg" then healdsburgAddressFind u locs
           else none) := by
  intro u info locs
  unfold findMatchingLocation findMatchingLocationNoAddress
  cases coordStep u info locs with
  | some l => rfl
  | none =>
    cases nameCityStep u info locs with
    | some l => rfl
    | none =>
      cases nameStep u info locs with
      | some l => rfl
      | none => exact cityStep_decomp u info locs

